import Mathlib

/-!
Verification development for the blaze schema compiler (Go).

This file gives a shallow embedding, in Lean 4, of the parts of the source
that the specification claims talk about: the AST data model (enums, classes,
fields, directives, relations), the enum parser and validator, the field
directive and relation consistency validators, the integer default validator,
the source reader's block separation, the schema validator passes for primary
keys and circular dependencies, and the forward migration engine.

Modelling conventions, applied uniformly:
  - Go structs become Lean structures with the same field names (capitalised
    as in the Go exports).  Pointer fields that can be nil become `Option`.
  - Go `interface{}` values become small sum types (`GoVal`, `DirValue`);
    a Go type assertion corresponds to matching the constructor.
  - A Go map together with its (run dependent) iteration order is modelled as
    an association list: the list order stands for the iteration order of one
    particular run, and two lists that are permutations of each other describe
    the same map contents.
  - Functions returning `error` become `Except E Unit` (or `Except E A`) where
    `E` is an inductive with one constructor per distinct `return fmt.Errorf`
    site; the Go error strings themselves are not reproduced.
  - Go regular expressions used by the embedded code are compiled by hand into
    deterministic scanners over `List Char`.  For every pattern that appears
    (they all use character classes that are pairwise disjoint from what the
    following atom can start with) greedy matching needs no backtracking, so
    the scanners are exact.
  - Byte-level Go string operations are modelled on characters; every string
    the program manipulates in the embedded paths is ASCII.
  - A few helpers of the migration package (`applyQuotes`, `mapToPGType`,
    `generateColumnDefinition`, `generateDefaultValue`, `mapConstraintAction`)
    are declared by the source but their bodies are not part of the provided
    tree; each is modelled from the spec and marked as such in its doc string.
-/

deriving instance DecidableEq for Except

namespace Blaze

/-! ### ASCII character helpers -/

/-- Single quote character, obtained numerically. -/
def sqChar : Char := Char.ofNat 39

/-- Single quote as a string. -/
def sq : String := String.singleton sqChar

/-- Backslash character, obtained numerically. -/
def bsChar : Char := Char.ofNat 92

/-- Whitespace class of Go regexp `\s`, namely tab, newline, form feed,
carriage return and space. -/
def isSpaceRe (c : Char) : Bool :=
  c = ' ' ∨ c = Char.ofNat 9 ∨ c = Char.ofNat 10 ∨ c = Char.ofNat 12 ∨ c = Char.ofNat 13

/-- Whitespace accepted by Go `strings.TrimSpace` / `unicode.IsSpace`,
restricted to ASCII (the embedded inputs are ASCII): `\s` plus vertical tab. -/
def isSpaceGo (c : Char) : Bool :=
  isSpaceRe c ∨ c = Char.ofNat 11

/-- Character class `[a-zA-Z]`. -/
def isAsciiLetter (c : Char) : Bool :=
  ('a' ≤ c ∧ c ≤ 'z') ∨ ('A' ≤ c ∧ c ≤ 'Z')

/-- Character class `[a-zA-Z0-9_]` (a "word" character). -/
def isWordChar (c : Char) : Bool :=
  isAsciiLetter c ∨ c.isDigit ∨ c = '_'

/-- Character class `[A-Z]`. -/
def isAsciiUpper (c : Char) : Bool :=
  'A' ≤ c ∧ c ≤ 'Z'

/-- ASCII lower-casing of one character, as Go `strings.ToLower` acts on
ASCII input. -/
def toLowerChar (c : Char) : Char :=
  if isAsciiUpper c then Char.ofNat (c.toNat + 32) else c

/-- ASCII upper-casing of one character, as Go `strings.ToUpper` acts on
ASCII input. -/
def toUpperChar (c : Char) : Char :=
  if 'a' ≤ c ∧ c ≤ 'z' then Char.ofNat (c.toNat - 32) else c

/-- Go `strings.ToLower` on ASCII strings. -/
def toLowerStr (s : String) : String :=
  String.mk (s.toList.map toLowerChar)

/-- Go `strings.ToUpper` on ASCII strings. -/
def toUpperStr (s : String) : String :=
  String.mk (s.toList.map toUpperChar)

/-- Go `strings.TrimSpace` (ASCII fragment). -/
def trimSpaceGo (s : String) : String :=
  String.mk (((s.toList.dropWhile isSpaceGo).reverse.dropWhile isSpaceGo).reverse)

/-- Membership of a character in a string's characters. -/
def strHasChar (s : String) (c : Char) : Bool :=
  s.toList.contains c

/-! ### Lexical constants (`core/constants/constants.go`) -/

/-- Keys of `constants.TypeMappings`: the scalar type names. -/
def scalarTypeNames : List String :=
  ["Int", "BigInt", "SmallInt", "Float", "Numeric", "String",
   "Boolean", "Date", "Timestamp", "Json", "Bytes", "Char"]

/-- Go `constants.IsScalarType`: membership in `TypeMappings`. -/
def IsScalarType (t : String) : Bool :=
  scalarTypeNames.contains t

/-- Go `constants.KEYWORD_ENUM`. -/
def KEYWORD_ENUM : String := "enum"

/-- Go `constants.KEYWORD_CLASS`. -/
def KEYWORD_CLASS : String := "class"

/-- Go `constants.FIELD_ATTR_PRIMARY_KEY` (same string as the class level
directive name `CLASS_ATTR_PRIMARY_KEY`). -/
def ATTR_PRIMARY_KEY : String := "primaryKey"

/-- Go `constants.FIELD_ATTR_UNIQUE` / `CLASS_ATTR_UNIQUE`. -/
def ATTR_UNIQUE : String := "unique"

/-- Go `constants.FIELD_ATTR_UPDATED_AT`. -/
def ATTR_UPDATED_AT : String := "updatedAt"

/-- Go `constants.CLASS_ATTR_INDEX`. -/
def CLASS_ATTR_INDEX : String := "index"

/-- Go `constants.CLASS_ATTR_TEXT_INDEX`. -/
def CLASS_ATTR_TEXT_INDEX : String := "textIndex"

/-- Go `constants.CLASS_ATTR_CHECK`. -/
def CLASS_ATTR_CHECK : String := "check"

/-- Go `constants.FIELD_KIND_SCALAR`. -/
def FIELD_KIND_SCALAR : String := "scalar"

/-- Go `constants.FIELD_KIND_ENUM`. -/
def FIELD_KIND_ENUM : String := "enum"

/-- Go `constants.FIELD_KIND_OBJECT`. -/
def FIELD_KIND_OBJECT : String := "object"

/-- Go `constants.ON_DELETE_SET_NULL`. -/
def ON_DELETE_SET_NULL : String := "SetNull"

/-- Go `constants.ON_DELETE_NO_ACTION` (also `ON_UPDATE_NO_ACTION`). -/
def ON_DELETE_NO_ACTION : String := "NoAction"

/-- Go `constants.DEFAULT_UUID_CALLBACK`. -/
def DEFAULT_UUID_CALLBACK : String := "uuid()"

/-! ### The AST data model -/

/-- Go `enum.EnumValue`. -/
structure EnumValue where
  Name : String
  Position : Nat
deriving DecidableEq, Repr

/-- Go `enum.Enum`. -/
structure Enum where
  Name : String
  Values : List EnumValue
  Position : Nat
deriving DecidableEq, Repr

/-- Go `relations.Relation`.  The Go field `From` is a `[]string`; `FromClass`
and `ToClass` are plain strings; the action and name fields default to the
empty string when unset. -/
structure Relation where
  From : List String
  FromClass : String
  To : List String
  ToClass : String
  OnDelete : String
  OnUpdate : String
  Name : String
deriving DecidableEq, Repr

/-- Value carried by a Go `interface{}` slot in the embedded code: an `int64`,
a string, or a boolean.  (Array default payloads, `[]interface{}`, are never
inspected by the embedded code paths and are not represented.) -/
inductive GoVal where
  | int : Int → GoVal
  | str : String → GoVal
  | boolean : Bool → GoVal
deriving DecidableEq, Repr

/-- Go `defaults.DefaultValue`.  The Go field `Type` is rendered `Typ` because
`Type` is reserved in Lean. -/
structure DefaultValue where
  Value : GoVal
  Typ : String
  DataType : String
  IsArray : Bool
deriving DecidableEq, Repr

/-- Go `directives.FieldDirective` (field-level `@primaryKey`, `@unique`,
`@updatedAt`).  Its `Value interface{}` is nil for well-formed directives;
only nil-ness is ever inspected, so it is modelled as `Option String`. -/
structure FieldDirective where
  Name : String
  Value : Option String
deriving DecidableEq, Repr

/-- Payload of a class directive's `Value interface{}`: a `[]string` of field
names for `@@primaryKey`/`@@unique`/`@@index`/`@@textIndex`, or the constraint
expression string for `@@check`. -/
inductive DirValue where
  | fields : List String → DirValue
  | expr : String → DirValue
deriving DecidableEq, Repr

/-- Go `directives.ClassDirective` (class-level `@@…`). -/
structure ClassDirective where
  Name : String
  PseudoName : String
  Value : Option DirValue
deriving DecidableEq, Repr

/-- Go `attributes.AttributeDefinition`.  The `Attributes []*Attribute` slice
(raw `@default`/`@relation` argument strings) is not carried: the embedded
code paths read only the processed `DefaultValue` and `Relation` slots and the
`Directives` slice. -/
structure AttributeDefinition where
  Name : String
  DataType : String
  Kind : String
  IsOptional : Bool
  IsArray : Bool
  Directives : List FieldDirective
  DefaultValue : Option DefaultValue
  Relation : Option Relation
deriving DecidableEq, Repr

/-- Go `field.Field`; the `AttributeDefinition` pointer may be nil. -/
structure Field where
  AttrDef : Option AttributeDefinition
  Position : Nat
deriving DecidableEq, Repr

/-- Go `attributes.ClassAttributes` (the class-body payload). -/
structure ClassAttributes where
  Fields : List Field
  Directives : List ClassDirective
deriving DecidableEq, Repr

/-- Go `class.Class`. -/
structure Class where
  Name : String
  Attributes : ClassAttributes
  Position : Nat
deriving DecidableEq, Repr

/-- Go `ast.SchemaAST`.  `Enums` is a Go `map[string]*enum.Enum`; it is
modelled as an association list whose order is the iteration order of one
particular run (Go randomises that order per run). -/
structure SchemaAST where
  Enums : List (String × Enum)
  Classes : List Class
deriving DecidableEq, Repr

/-- Lookup in an association list modelling a Go map (keys are unique in any
list actually built by the program, so first-match lookup agrees with the
map). -/
def mapLookup (m : List (String × Enum)) (k : String) : Option Enum :=
  match m.find? (fun p => p.1 = k) with
  | some p => some p.2
  | none => none

/-! ### Field and class accessors (`field.go`, `attributes.go`, `class.go`) -/

/-- Go `GetDirectiveByName` over field directives. -/
def getFieldDirectiveByName (attrs : List FieldDirective) (name : String) :
    Option FieldDirective :=
  attrs.find? (fun a => a.Name = name)

/-- Go `directives.HasDirective` over field directives. -/
def hasFieldDirective (attrs : List FieldDirective) (name : String) : Bool :=
  (getFieldDirectiveByName attrs name).isSome

/-- Go `Field.GetName` (empty string when the definition pointer is nil). -/
def Field.GetName (f : Field) : String :=
  match f.AttrDef with
  | none => ""
  | some ad => ad.Name

/-- Go `Field.GetBaseType` (returns the `DataType`). -/
def Field.GetBaseType (f : Field) : String :=
  match f.AttrDef with
  | none => ""
  | some ad => ad.DataType

/-- Go `Field.GetKind`. -/
def Field.GetKind (f : Field) : String :=
  match f.AttrDef with
  | none => ""
  | some ad => ad.Kind

/-- Go `Field.IsOptional`. -/
def Field.IsOptional (f : Field) : Bool :=
  match f.AttrDef with
  | none => false
  | some ad => ad.IsOptional

/-- Go `Field.IsArray`. -/
def Field.IsArray (f : Field) : Bool :=
  match f.AttrDef with
  | none => false
  | some ad => ad.IsArray

/-- Go `Field.IsPrimaryKey` (via `AttributeDefinition.IsPrimaryKey`,
a lookup of the `primaryKey` directive). -/
def Field.IsPrimaryKey (f : Field) : Bool :=
  match f.AttrDef with
  | none => false
  | some ad => hasFieldDirective ad.Directives ATTR_PRIMARY_KEY

/-- Go `Field.IsUnique` (via `AttributeDefinition.IsUnique`). -/
def Field.IsUnique (f : Field) : Bool :=
  match f.AttrDef with
  | none => false
  | some ad => hasFieldDirective ad.Directives ATTR_UNIQUE

/-- Go `Field.HasDefault` (via `AttributeDefinition.HasDefault`, which tests
`DefaultValue != nil`). -/
def Field.HasDefault (f : Field) : Bool :=
  match f.AttrDef with
  | none => false
  | some ad => ad.DefaultValue.isSome

/-- Go `Field.HasRelation` (via `AttributeDefinition.IsRelationField`, which
tests `Relation != nil`). -/
def Field.HasRelation (f : Field) : Bool :=
  match f.AttrDef with
  | none => false
  | some ad => ad.Relation.isSome

/-- Direct access `field.AttributeDefinition.Relation` as used by the schema
validator (a nil definition pointer cannot occur on that path; it is mapped
to `none`). -/
def Field.relationSlot (f : Field) : Option Relation :=
  match f.AttrDef with
  | none => none
  | some ad => ad.Relation

/-- Direct access `field.AttributeDefinition.DefaultValue`. -/
def Field.defaultSlot (f : Field) : Option DefaultValue :=
  match f.AttrDef with
  | none => none
  | some ad => ad.DefaultValue

/-- Go `Field.IsForeignKey`: object kind and a relation attribute. -/
def Field.IsForeignKey (f : Field) : Bool :=
  match f.AttrDef with
  | none => false
  | some ad => ad.Kind = FIELD_KIND_OBJECT ∧ f.HasRelation

/-- Go `Relation.IsComposite`. -/
def Relation.IsComposite (r : Relation) : Bool :=
  r.To.length > 1 ∨ r.From.length > 1

/-- Go `Relation.HasOnDelete`. -/
def Relation.HasOnDelete (r : Relation) : Bool :=
  r.OnDelete ≠ "" ∧ r.OnDelete ≠ ON_DELETE_NO_ACTION

/-- Go `Relation.HasOnUpdate`. -/
def Relation.HasOnUpdate (r : Relation) : Bool :=
  r.OnUpdate ≠ "" ∧ r.OnUpdate ≠ ON_DELETE_NO_ACTION

/-- Go `GetClassDirectiveByName`. -/
def getClassDirectiveByName (attrs : List ClassDirective) (name : String) :
    Option ClassDirective :=
  attrs.find? (fun a => a.Name = name)

/-- Go `ClassDirective.GetFields`: the `[]string` type assertion on `Value`. -/
def ClassDirective.GetFields (cd : ClassDirective) : Option (List String) :=
  match cd.Value with
  | some (.fields fs) => some fs
  | _ => none

/-- Go `ClassDirective.GetConstraint`: the `string` type assertion. -/
def ClassDirective.GetConstraint (cd : ClassDirective) : Option String :=
  match cd.Value with
  | some (.expr s) => some s
  | _ => none

/-- Go `ClassAttributes.GetDirectiveByName`. -/
def ClassAttributes.GetDirectiveByName (ca : ClassAttributes) (name : String) :
    Option ClassDirective :=
  getClassDirectiveByName ca.Directives name

/-- Go `ClassAttributes.HasPrimaryKey` (presence of a `@@primaryKey`
directive). -/
def ClassAttributes.HasPrimaryKey (ca : ClassAttributes) : Bool :=
  (ca.GetDirectiveByName ATTR_PRIMARY_KEY).isSome

/-- Go `ClassAttributes.HasUnique`. -/
def ClassAttributes.HasUnique (ca : ClassAttributes) : Bool :=
  (ca.GetDirectiveByName ATTR_UNIQUE).isSome

/-- Go `ClassAttributes.HasIndex`. -/
def ClassAttributes.HasIndex (ca : ClassAttributes) : Bool :=
  (ca.GetDirectiveByName CLASS_ATTR_INDEX).isSome

/-- Go `ClassAttributes.HasTextIndex`. -/
def ClassAttributes.HasTextIndex (ca : ClassAttributes) : Bool :=
  (ca.GetDirectiveByName CLASS_ATTR_TEXT_INDEX).isSome

/-- Go `ClassAttributes.HasCheck`. -/
def ClassAttributes.HasCheck (ca : ClassAttributes) : Bool :=
  (ca.GetDirectiveByName CLASS_ATTR_CHECK).isSome

/-- Go `ClassAttributes.GetUniqueDirective`. -/
def ClassAttributes.GetUniqueDirective (ca : ClassAttributes) : Option ClassDirective :=
  ca.GetDirectiveByName ATTR_UNIQUE

/-- Go `ClassAttributes.GetIndexDirective`. -/
def ClassAttributes.GetIndexDirective (ca : ClassAttributes) : Option ClassDirective :=
  ca.GetDirectiveByName CLASS_ATTR_INDEX

/-- Go `ClassAttributes.GetTextIndexDirective`. -/
def ClassAttributes.GetTextIndexDirective (ca : ClassAttributes) : Option ClassDirective :=
  ca.GetDirectiveByName CLASS_ATTR_TEXT_INDEX

/-- Go `ClassAttributes.GetCheckDirective`. -/
def ClassAttributes.GetCheckDirective (ca : ClassAttributes) : Option ClassDirective :=
  ca.GetDirectiveByName CLASS_ATTR_CHECK

/-- Go `ClassAttributes.GetFieldByName` (first field with the name). -/
def ClassAttributes.GetFieldByName (ca : ClassAttributes) (name : String) :
    Option Field :=
  ca.Fields.find? (fun f => f.GetName = name)

/-- Go `ClassAttributes.GetPrimaryKeyFields`: the `@@primaryKey` directive's
field list when present and well typed, else the name of the first field-level
`primaryKey` field, else empty. -/
def ClassAttributes.GetPrimaryKeyFields (ca : ClassAttributes) : List String :=
  match ca.GetDirectiveByName ATTR_PRIMARY_KEY with
  | some d =>
    match d.GetFields with
    | some fs => fs
    | none =>
      match ca.Fields.find? (fun f => f.IsPrimaryKey) with
      | some f => [f.GetName]
      | none => []
  | none =>
    match ca.Fields.find? (fun f => f.IsPrimaryKey) with
    | some f => [f.GetName]
    | none => []

/-- Go `Class.GetPrimaryKeyFields`. -/
def Class.GetPrimaryKeyFields (c : Class) : List String :=
  c.Attributes.GetPrimaryKeyFields

/-- Go `SchemaAST.GetClassByName` (linear scan, first match). -/
def SchemaAST.GetClassByName (s : SchemaAST) (name : String) : Option Class :=
  s.Classes.find? (fun c => c.Name = name)

/-! ### Enum parser and validator (`core/ast/enum/enum.go`) -/

/-- Error kinds of the enum validator; one constructor per distinct error
return site. -/
inductive EnumErr where
  | emptyName
  | invalidIdentifier
  | reservedKeyword
  | scalarConflict
  | tooLong
  | namingStyle
  | noValues
  | tooManyValues
  | duplicateValue
  | invalidPosition
  | invalidDefinition
  | nameRequired
  | valueRequired
  | noNonEmptyValue
deriving DecidableEq, Repr

/-- Reserved words built in `NewEnumValidator`: `enum`, `class`, `true`,
`false`, `null`, and the lower-cased scalar type names. -/
def reservedKeywords : List String :=
  [KEYWORD_ENUM, KEYWORD_CLASS, "true", "false", "null"] ++
    scalarTypeNames.map toLowerStr

/-- Go regexp `^[a-zA-Z_][a-zA-Z0-9_]*$` (the `identifierPattern`). -/
def isIdentifierPattern (s : String) : Bool :=
  match s.toList with
  | [] => false
  | c :: cs => (isAsciiLetter c ∨ c = '_') ∧ cs.all isWordChar

/-- Go `EnumValidator.ValidateEnumName`.  String length is measured in
characters; the Go byte length agrees on the ASCII strings involved. -/
def ValidateEnumName (name : String) : Except EnumErr Unit :=
  if name = "" then .error .emptyName
  else if ¬ isIdentifierPattern name then .error .invalidIdentifier
  else if reservedKeywords.contains (toLowerStr name) then .error .reservedKeyword
  else if IsScalarType name then .error .scalarConflict
  else if name.length > 64 then .error .tooLong
  else .ok ()

/-- Go `EnumValidator.isValidEnumValueNaming`; `rune(value[0])` is the first
character for ASCII input, and the function is only reached on non-empty
values (the empty case mirrors Go's would-be panic as `false`). -/
def isValidEnumValueNaming (value : String) : Bool :=
  if toUpperStr value = value ∧ ¬ strHasChar value '_' then true
  else if toUpperStr value = value then true
  else
    match value.toList with
    | [] => false
    | c :: _ => isAsciiUpper c

/-- Go `EnumValidator.ValidateEnumValue` (the enum name argument only feeds
error messages and is dropped). -/
def ValidateEnumValue (value : String) : Except EnumErr Unit :=
  if value = "" then .error .emptyName
  else if ¬ isIdentifierPattern value then .error .invalidIdentifier
  else if reservedKeywords.contains (toLowerStr value) then .error .reservedKeyword
  else if IsScalarType value then .error .scalarConflict
  else if ¬ isValidEnumValueNaming value then .error .namingStyle
  else if value.length > 64 then .error .tooLong
  else .ok ()

/-- Body of the `for i, enumValue := range enum.Values` loop of
`ValidateEnum`: per-value validation, case-insensitive duplicate check
(`seen` holds the lower-cased names already encountered, the keys of Go's
`valueMap`), and the `Position != i + 1` check. -/
def validateEnumValuesLoop : List EnumValue → Nat → List String → Except EnumErr Unit
  | [], _, _ => .ok ()
  | ev :: rest, i, seen =>
    match ValidateEnumValue ev.Name with
    | .error e => .error e
    | .ok _ =>
      if seen.contains (toLowerStr ev.Name) then .error .duplicateValue
      else if ev.Position ≠ i + 1 then .error .invalidPosition
      else validateEnumValuesLoop rest (i + 1) (toLowerStr ev.Name :: seen)

/-- Go `EnumValidator.ValidateEnum`. -/
def ValidateEnum (e : Enum) : Except EnumErr Unit :=
  match ValidateEnumName e.Name with
  | .error err => .error err
  | .ok _ =>
    if e.Values.length = 0 then .error .noValues
    else if e.Values.length > 255 then .error .tooManyValues
    else validateEnumValuesLoop e.Values 0 []

/-- Hand-compiled scanner for the anchored Go regexp
`^enum\s+([A-Za-z_][A-Za-z0-9_]*)\s*\{([^}]*)\}\s*$` (the `enumRegex`).
Each character class is disjoint from what the following atom can start with,
so greedy matching is deterministic; `([^}]*)` necessarily stops at the first
closing brace.  Returns the two capture groups. -/
def matchEnumDef (s : String) : Option (String × String) :=
  match s.toList with
  | 'e' :: 'n' :: 'u' :: 'm' :: rest =>
    match rest with
    | c :: rest2 =>
      if isSpaceRe c then
        let rest3 := rest2.dropWhile isSpaceRe
        match rest3 with
        | d :: rest4 =>
          if isAsciiLetter d ∨ d = '_' then
            let name := String.mk (d :: rest4.takeWhile isWordChar)
            let rest5 := rest4.dropWhile isWordChar
            match rest5.dropWhile isSpaceRe with
            | '{' :: rest7 =>
              let body := rest7.takeWhile (fun ch => ch ≠ '}')
              match rest7.dropWhile (fun ch => ch ≠ '}') with
              | '}' :: rest9 =>
                if rest9.all isSpaceRe then some (name, String.mk body) else none
              | _ => none
            | _ => none
          else none
        | [] => none
      else none
    | [] => none
  | _ => none

/-- Go `regexp.Split` semantics for the separator `\s+` (the
`valueSplitRegex`): pieces between maximal whitespace runs, keeping empty
pieces at the borders.  `cur` is the current piece reversed, `inRun` records
that the previous character was whitespace (so further whitespace extends the
same separator). -/
def splitWsAux (cur : List Char) (inRun : Bool) : List Char → List String
  | [] => [String.mk cur.reverse]
  | c :: cs =>
    if isSpaceRe c then
      if inRun then splitWsAux cur true cs
      else String.mk cur.reverse :: splitWsAux [] true cs
    else splitWsAux (c :: cur) false cs

/-- Split a string around maximal runs of regexp whitespace. -/
def splitWsGo (s : String) : List String :=
  splitWsAux [] false s.toList

/-- Go `EnumValidator.ParseEnum`: trim, match `enumRegex`, split the values
part on whitespace, record each non-empty piece with its raw split index as
`Position`, then run `ValidateEnum`. -/
def ParseEnum (definition : String) (position : Nat) : Except EnumErr Enum :=
  match matchEnumDef (trimSpaceGo definition) with
  | none => .error .invalidDefinition
  | some (namePart, valuesPart) =>
    if namePart = "" then .error .nameRequired
    else if valuesPart = "" then .error .valueRequired
    else
      let values := (splitWsGo valuesPart).enum.filterMap fun p =>
        if trimSpaceGo p.2 = "" then none
        else some (⟨trimSpaceGo p.2, p.1⟩ : EnumValue)
      if values.length = 0 then .error .noNonEmptyValue
      else
        match ValidateEnum ⟨namePart, values, position⟩ with
        | .error err => .error err
        | .ok _ => .ok ⟨namePart, values, position⟩

/-! ### Relation consistency (`attributes.go`, `validateRelationConsistency`) -/

/-- Error kinds of `AttributeValidator.validateRelationConsistency`. -/
inductive RelConsErr where
  | compositeTooFew
  | requiresOptional
deriving DecidableEq, Repr

/-- Go `AttributeValidator.validateRelationConsistency`: a composite relation
must reference at least two target fields, and `onDelete: SetNull` demands an
optional source field.  `isOptional` is `fieldDef.IsOptional` of the field
carrying the `@relation` attribute; the function is invoked from
`ValidateFieldDefinition` while parsing a field, so a returned error fails the
field's parse. -/
def validateRelationConsistency (r : Relation) (isOptional : Bool) :
    Except RelConsErr Unit :=
  if r.IsComposite ∧ r.To.length < 2 then .error .compositeTooFew
  else if r.HasOnDelete ∧ r.OnDelete = ON_DELETE_SET_NULL ∧ ¬ isOptional then
    .error .requiresOptional
  else .ok ()

/-! ### Integer default validation (`defaults.go`, `validateIntDefault`) -/

/-- Matches the tail of a quoted literal after its opening quote, namely the
regexp fragment `([^q\\]|\\.)*q$` where `q` is the quote character.  The body
class excludes the quote and the backslash, an escape is a backslash followed
by any character but newline (`.` without the `s` flag), and the closing quote
must be the final character. -/
def quotedTail (q : Char) : List Char → Bool
  | [] => false
  | [c] => c = q
  | c :: rest =>
    if c = bsChar then
      match rest with
      | d :: rest2 => if d = Char.ofNat 10 then false else quotedTail q rest2
      | [] => false
    else if c = q then false
    else quotedTail q rest

/-- Go regexp `^"([^"\\]|\\.)*"$|^'([^'\\]|\\.)*'$` (the `stringPattern`):
a fully double- or single-quoted literal. -/
def stringPatternMatch (s : String) : Bool :=
  match s.toList with
  | [] => false
  | c :: rest => (c = '"' ∧ quotedTail '"' rest) ∨ (c = sqChar ∧ quotedTail sqChar rest)

/-- Numeric value of a list of decimal digit characters. -/
def digitsToNat (ds : List Char) : Nat :=
  ds.foldl (fun a c => a * 10 + (c.toNat - 48)) 0

/-- Go `strconv.ParseInt(s, 10, 64)`: optional sign, at least one decimal
digit, and the signed value must fit in 64 bits; any violation is an error
(`none`). -/
def parseInt64 (s : String) : Option Int :=
  let cs := s.toList
  let sd : Int × List Char :=
    match cs with
    | c :: rest =>
      if c = '+' then (1, rest) else if c = '-' then (-1, rest) else (1, cs)
    | [] => (1, [])
  let ds := sd.2
  if ds.isEmpty then none
  else if ds.all Char.isDigit then
    let v : Int := sd.1 * (digitsToNat ds : Nat)
    if v < -(2 ^ 63) ∨ v > 2 ^ 63 - 1 then none else some v
  else none

/-- Error kinds of `validateIntDefault`: the `strconv.ParseInt` failure and
the range check failure. -/
inductive IntDefErr where
  | invalidLiteral
  | outOfRange
deriving DecidableEq, Repr

/-- Go slicing `s[1 : len(s)-1]`: drop the first and last character. -/
def stripOuterChars (s : String) : String :=
  String.mk ((s.toList.drop 1).dropLast)

/-- Go `DefaultValidator.validateIntDefault`: strip a fully quoted literal,
trim, parse in base 10 with 64-bit bounds, then range-check `SmallInt`
against int16 and `Int` against int32 (a `BigInt` needs no further check). -/
def validateIntDefault (defaultStr fieldType : String) : Except IntDefErr DefaultValue :=
  match parseInt64 (trimSpaceGo
      (if stringPatternMatch defaultStr then stripOuterChars defaultStr else defaultStr)) with
  | none => .error .invalidLiteral
  | some val =>
    if fieldType = "SmallInt" ∧ (val < -32768 ∨ val > 32767) then .error .outOfRange
    else if fieldType = "Int" ∧ (val < -2147483648 ∨ val > 2147483647) then .error .outOfRange
    else .ok ⟨.int val, "literal", fieldType, false⟩

/-! ### Source reader (`core/utils/reader.go`) -/

/-- Characters that are braces. -/
def isBrace (c : Char) : Bool :=
  c = '{' ∨ c = '}'

/-- Matches the brace-block part of the reader's patterns after the opening
`{` has been consumed: the regexp fragment `[^{}]*(?:\{[^{}]*\}[^{}]*)*\}`.
All quantified classes exclude braces, so greedy matching is forced: runs of
non-brace characters alternate with at most singly nested `{…}` groups until
the closing `}`.  `fuel` bounds the recursion (each step consumes at least one
character); callers pass the remaining length, which never runs out.  Returns
the remainder after the closing brace. -/
def matchBlockBody : Nat → List Char → Option (List Char)
  | 0, _ => none
  | fuel + 1, l =>
    match l.dropWhile (fun c => ¬ isBrace c) with
    | '}' :: rest => some rest
    | '{' :: rest =>
      match rest.dropWhile (fun c => ¬ isBrace c) with
      | '}' :: rest2 => matchBlockBody fuel rest2
      | _ => none
    | _ => none

/-- The `\{…\}` part of the pattern: an opening brace followed by the block
body. -/
def matchOpenBrace : List Char → Option (List Char)
  | [] => none
  | x :: r6 => if x = '{' then matchBlockBody (r6.length + 1) r6 else none

/-- The `[A-Z][a-zA-Z0-9_]{0,63}\s*\{…\}` part of the pattern.  A word run
longer than 64 characters fails the whole attempt (no split of the word run
can let `\s*\{` continue). -/
def matchNameAndBody : List Char → Option (List Char)
  | [] => none
  | d :: r3 =>
    if isAsciiUpper d then
      if (r3.takeWhile isWordChar).length > 63 then none
      else matchOpenBrace ((r3.dropWhile isWordChar).dropWhile isSpaceRe)
    else none

/-- The `\s+` part after the keyword: at least one whitespace character, then
greedily the rest of the run. -/
def matchAfterKeyword : List Char → Option (List Char)
  | [] => none
  | c :: r1 => if isSpaceRe c then matchNameAndBody (r1.dropWhile isSpaceRe) else none

/-- Attempt, anchored at the head of `l`, of the reader's block pattern
`KW\s+[A-Z][a-zA-Z0-9_]{0,63}\s*\{[^{}]*(?:\{[^{}]*\}[^{}]*)*\}` with keyword
`kw`: the literal keyword, then the steps above.  Returns the remainder after
the match. -/
def matchKeywordBlock (kw : List Char) (l : List Char) : Option (List Char) :=
  if l.take kw.length = kw then matchAfterKeyword (l.drop kw.length) else none

/-- Go `regexp.FindAllString(content, -1)` for the block pattern: repeated
leftmost non-overlapping matches, scanning forward one character when no match
starts at the current position.  `fuel` bounds the recursion (every step
consumes at least one character); callers pass the content length plus one. -/
def findAllBlocksAux (kw : List Char) : Nat → List Char → List String
  | 0, _ => []
  | _, [] => []
  | fuel + 1, c :: cs =>
    match matchKeywordBlock kw (c :: cs) with
    | some rest =>
      String.mk ((c :: cs).take ((c :: cs).length - rest.length)) ::
        findAllBlocksAux kw fuel rest
    | none => findAllBlocksAux kw fuel cs

/-- All matches of the block pattern with keyword `kw` in `content`. -/
def findAllBlocks (kw : String) (content : String) : List String :=
  findAllBlocksAux kw.toList (content.toList.length + 1) content.toList

/-- Go `separateEnumsAndClassesWithRegex`: the enum block matches and the
class block matches, each joined by blank lines.  The function has no error
result of any kind. -/
def separateEnumsAndClassesWithRegex (content : String) : String × String :=
  (String.intercalate "\n\n" (findAllBlocks KEYWORD_ENUM content),
   String.intercalate "\n\n" (findAllBlocks KEYWORD_CLASS content))

/-! ### Schema validator (`validation` package) -/

/-- Go `validation.ValidationError`; the Go field `Type` is rendered `Typ`. -/
structure ValidationError where
  Typ : String
  Message : String
  Location : String
deriving DecidableEq, Repr

/-- Location string `class 'X'`. -/
def locClass (cls : Class) : String :=
  "class " ++ sq ++ cls.Name ++ sq

/-- Location string `class 'X', field 'y'`. -/
def locClassField (cls : Class) (name : String) : String :=
  locClass cls ++ ", field " ++ sq ++ name ++ sq

/-- Error produced by `validateCircularDependencies`. -/
def circularDependencyError (cls : Class) (fld : Field) (targetType : String) :
    ValidationError :=
  ⟨"CIRCULAR_DEPENDENCY",
   "Circular dependency found between " ++ sq ++ targetType ++ sq ++ " and " ++
     sq ++ cls.Name ++ sq,
   locClassField cls fld.GetName⟩

/-- Body of the `validateCircularDependencies` loop for one class and one of
its fields: skip unless the field's base type resolves to a class and the
field's `Relation` slot is set; report when the target class has a field that
is a foreign key back to `cls` with both fields non-optional. -/
def circErrAt (s : SchemaAST) (cls : Class) (fld : Field) : Option ValidationError :=
  match s.GetClassByName fld.GetBaseType with
  | none => none
  | some targetClass =>
    match fld.relationSlot with
    | none => none
    | some _ =>
      if targetClass.Attributes.Fields.any (fun tf =>
          tf.IsForeignKey ∧ tf.GetBaseType = cls.Name ∧
            ¬ tf.IsOptional ∧ ¬ fld.IsOptional)
      then some (circularDependencyError cls fld fld.GetBaseType)
      else none

/-- Go `SchemaValidator.validateCircularDependencies`, as the list of errors
it accumulates over all classes and fields. -/
def circularDependencyErrors (s : SchemaAST) : List ValidationError :=
  s.Classes.flatMap fun cls =>
    cls.Attributes.Fields.filterMap fun fld => circErrAt s cls fld

/-- Claim-side notion for the circular dependency rule: class `A` has a
non-optional relation-bearing field whose type is class `B`. -/
def RequiredRelTo (A B : Class) : Prop :=
  ∃ f ∈ A.Attributes.Fields,
    f.GetBaseType = B.Name ∧ f.relationSlot.isSome ∧ f.IsOptional = false

instance (A B : Class) : Decidable (RequiredRelTo A B) := by
  unfold RequiredRelTo
  infer_instance

/-- Errors accumulated by `validatePrimaryKeys` for one class, in emission
order: the multiple-field-PK check, the field/class conflict check, and (when
a `@@primaryKey` directive exists) existence, optionality and array checks of
each referenced field. -/
def pkErrorsForClass (cls : Class) : List ValidationError :=
  let fieldPKCount := (cls.Attributes.Fields.filter (·.IsPrimaryKey)).length
  let classPKExists := cls.Attributes.HasPrimaryKey
  (if fieldPKCount > 1 then
     [⟨"MULTIPLE_FIELD_PK",
       "Class " ++ sq ++ cls.Name ++ sq ++ " has multiple field-level primary keys",
       locClass cls⟩]
   else []) ++
  (if fieldPKCount > 0 ∧ classPKExists then
     [⟨"CONFLICTING_PK",
       "Class " ++ sq ++ cls.Name ++ sq ++ " has both field-level and class-level primary keys",
       locClass cls⟩]
   else []) ++
  (if classPKExists then
     cls.Attributes.GetPrimaryKeyFields.flatMap fun fieldName =>
       match cls.Attributes.GetFieldByName fieldName with
       | none =>
         [⟨"INVALID_PK_FIELD",
           "Primary key references non-existent field " ++ sq ++ fieldName ++ sq,
           locClass cls⟩]
       | some fld =>
         (if fld.IsOptional then
            [⟨"OPTIONAL_PK_FIELD",
              "Primary key field " ++ sq ++ fieldName ++ sq ++ " cannot be optional",
              locClassField cls fieldName⟩]
          else []) ++
         (if fld.IsArray then
            [⟨"ARRAY_PK_FIELD",
              "Primary key field " ++ sq ++ fieldName ++ sq ++ " cannot be an array",
              locClassField cls fieldName⟩]
          else [])
   else [])

/-- Go `SchemaValidator.validatePrimaryKeys`, as the list of errors it
accumulates over all classes. -/
def primaryKeyErrors (s : SchemaAST) : List ValidationError :=
  s.Classes.flatMap pkErrorsForClass

/-! ### Field directive validation (`directives.go`, field level) -/

/-- Error kinds of the field-level directive validator. -/
inductive FieldDirErr where
  | pkOptional
  | pkArray
  | pkParams
  | uniqueArray
  | uniqueParams
  | updatedAtType
  | updatedAtArray
  | updatedAtParams
  | unknownDirective
  | duplicateDirective
  | pkUniqueConflict
deriving DecidableEq, Repr

/-- Go `validatePrimaryKeyDirective`: a `@primaryKey` field can be neither
optional nor an array, and the directive takes no parameters. -/
def validatePrimaryKeyDirective (attr : FieldDirective) (isOptional isArray : Bool) :
    Except FieldDirErr Unit :=
  if isOptional then .error .pkOptional
  else if isArray then .error .pkArray
  else if attr.Value.isSome then .error .pkParams
  else .ok ()

/-- Go `validateUniqueDirective`. -/
def validateUniqueDirective (attr : FieldDirective) (isArray : Bool) :
    Except FieldDirErr Unit :=
  if isArray then .error .uniqueArray
  else if attr.Value.isSome then .error .uniqueParams
  else .ok ()

/-- Go `validateUpdatedAtDirective`. -/
def validateUpdatedAtDirective (attr : FieldDirective) (fieldType : String)
    (isArray : Bool) : Except FieldDirErr Unit :=
  if fieldType ≠ "Timestamp" ∧ fieldType ≠ "Date" then .error .updatedAtType
  else if isArray then .error .updatedAtArray
  else if attr.Value.isSome then .error .updatedAtParams
  else .ok ()

/-- Go `DirectiveValidator.ValidateDirective` (field level). -/
def ValidateDirective (attr : FieldDirective) (fieldType : String)
    (isOptional isArray : Bool) : Except FieldDirErr Unit :=
  if attr.Name = ATTR_PRIMARY_KEY then validatePrimaryKeyDirective attr isOptional isArray
  else if attr.Name = ATTR_UNIQUE then validateUniqueDirective attr isArray
  else if attr.Name = ATTR_UPDATED_AT then validateUpdatedAtDirective attr fieldType isArray
  else .error .unknownDirective

/-- Loop of `ValidateMultipleDirectives`: duplicate detection via the
`DirectiveCount` map (`seen` holds the names already encountered), per
directive validation, and tracking of the `hasPrimaryKey`/`hasUnique` flags
for the final mutual-exclusion check. -/
def validateMultipleDirectivesLoop (fieldType : String) (isOptional isArray : Bool) :
    List FieldDirective → List String → Bool → Bool → Except FieldDirErr Unit
  | [], _, hasPK, hasUnique =>
    if hasPK ∧ hasUnique then .error .pkUniqueConflict else .ok ()
  | attr :: rest, seen, hasPK, hasUnique =>
    if seen.contains attr.Name then .error .duplicateDirective
    else
      match ValidateDirective attr fieldType isOptional isArray with
      | .error e => .error e
      | .ok _ =>
        validateMultipleDirectivesLoop fieldType isOptional isArray rest
          (attr.Name :: seen)
          (hasPK ∨ attr.Name = ATTR_PRIMARY_KEY)
          (hasUnique ∨ attr.Name = ATTR_UNIQUE)

/-- Go `DirectiveValidator.ValidateMultipleDirectives` (field level). -/
def ValidateMultipleDirectives (attrs : List FieldDirective) (fieldType : String)
    (isOptional isArray : Bool) : Except FieldDirErr Unit :=
  validateMultipleDirectivesLoop fieldType isOptional isArray attrs [] false false

/-! ### Class directive validation (class-level `directives.go`) -/

/-- Error kinds of the class-level directive validator. -/
inductive ClassDirErr where
  | needsValue
  | notStringArray
  | emptyFields
  | needsConstraint
  | notString
  | emptyConstraint
  | unknownDirective
  | duplicateDirective
deriving DecidableEq, Repr

/-- Go `DirectiveValidator.ValidateClassDirective`: the four field-list
directives need a non-empty `[]string` value, `@@check` a non-blank string. -/
def ValidateClassDirective (attr : ClassDirective) : Except ClassDirErr Unit :=
  if attr.Name = ATTR_PRIMARY_KEY ∨ attr.Name = ATTR_UNIQUE ∨
      attr.Name = CLASS_ATTR_INDEX ∨ attr.Name = CLASS_ATTR_TEXT_INDEX then
    match attr.Value with
    | none => .error .needsValue
    | some (.expr _) => .error .notStringArray
    | some (.fields fs) => if fs.length = 0 then .error .emptyFields else .ok ()
  else if attr.Name = CLASS_ATTR_CHECK then
    match attr.Value with
    | none => .error .needsConstraint
    | some (.fields _) => .error .notString
    | some (.expr s) => if trimSpaceGo s = "" then .error .emptyConstraint else .ok ()
  else .error .unknownDirective

/-- Loop of `ValidateMultipleClassDirectives` with the `directiveCount`
duplicate check. -/
def validateMultipleClassDirectivesLoop :
    List ClassDirective → List String → Except ClassDirErr Unit
  | [], _ => .ok ()
  | attr :: rest, seen =>
    if seen.contains attr.Name then .error .duplicateDirective
    else
      match ValidateClassDirective attr with
      | .error e => .error e
      | .ok _ => validateMultipleClassDirectivesLoop rest (attr.Name :: seen)

/-- Go `DirectiveValidator.ValidateMultipleClassDirectives`. -/
def ValidateMultipleClassDirectives (attrs : List ClassDirective) :
    Except ClassDirErr Unit :=
  validateMultipleClassDirectivesLoop attrs []

/-! ### Class-level primary key validation (`class.go`) -/

/-- Error kinds of `validatePrimaryKeyConstraints`. -/
inductive PKConstraintErr where
  | bothPK
  | missingPK
  | noValidFields
  | fieldNotFound
  | fieldOptional
  | fieldArray
deriving DecidableEq, Repr

/-- Loop over the `@@primaryKey` field names inside
`validatePrimaryKeyConstraints`. -/
def pkFieldsLoop (ca : ClassAttributes) : List String → Except PKConstraintErr Unit
  | [] => .ok ()
  | name :: rest =>
    match ca.GetFieldByName name with
    | none => .error .fieldNotFound
    | some fld =>
      if fld.IsOptional then .error .fieldOptional
      else if fld.IsArray then .error .fieldArray
      else pkFieldsLoop ca rest

/-- Go `ClassValidator.validatePrimaryKeyConstraints`: a class may not mix
field-level and class-level primary keys, must have one of the two, and the
fields of a `@@primaryKey` must exist and be neither optional nor arrays. -/
def validatePrimaryKeyConstraints (c : Class) : Except PKConstraintErr Unit :=
  let hasFieldPK := c.Attributes.Fields.any (·.IsPrimaryKey)
  let hasClassPK := c.Attributes.HasPrimaryKey
  if hasFieldPK ∧ hasClassPK then .error .bothPK
  else if ¬ hasFieldPK ∧ ¬ hasClassPK then .error .missingPK
  else if hasClassPK then
    let pkFields := c.Attributes.GetPrimaryKeyFields
    if pkFields.length = 0 then .error .noValidFields
    else pkFieldsLoop c.Attributes pkFields
  else .ok ()

/-! ### Migration engine (`core/migration`, `GenerateMigration` and helpers)

The migration package calls five helpers whose bodies are not part of the
provided tree (`applyQuotes`, `mapToPGType`, `generateColumnDefinition`,
`generateDefaultValue`, `mapConstraintAction`); each is modelled from the
spec below and so marked.  None of the claim verdicts depends on their exact
output beyond determinism, except `applyQuotes`, whose quoting behaviour the
spec fixes through the emitted SQL forms it displays. -/

/-- Go `migration.MigrationStatement`; the Go field `Type` is rendered
`Typ`. -/
structure MigrationStatement where
  SQL : String
  Typ : String
  Priority : Nat
deriving DecidableEq, Repr

/-- Modelled from the spec: `applyQuotes` is used throughout the migration
package but its body is missing from the provided tree.  The spec fixes it:
identifiers in emitted SQL are double-quoted to preserve case, and the
displayed emissions (`REFERENCES "ToClass" (…)` built from
`applyQuotes(relation.ToClass)`, `ALTER TABLE "User" ADD COLUMN "role"` built
from `applyQuotes` of the class and field names) show the quotes around the
bare identifier. -/
def applyQuotes (s : String) : String :=
  "\"" ++ s ++ "\""

/-- Modelled from the spec: `mapConstraintAction` of the migration engine is
missing from the provided tree; the spec's referential actions
{Cascade, Restrict, SetNull, NoAction} surface in SQL as the standard
`ON DELETE`/`ON UPDATE` keywords. -/
def mapConstraintAction (a : String) : String :=
  if a = "Cascade" then "CASCADE"
  else if a = "Restrict" then "RESTRICT"
  else if a = "SetNull" then "SET NULL"
  else if a = "NoAction" then "NO ACTION"
  else a

/-- Modelled from the spec: `mapToPGType` is missing from the provided tree.
The spec gives the canonical scalar map (Int↔int4, String↔text, …) with the
scalar types rendered as upper-case SQL keywords in emitted DDL (scenario S2
shows `TEXT`), and enum types rendered as the quoted enum name (S3 shows
`"Role"`).  Object-typed fields reach this function only through code paths
that discard the result.  The class argument feeds only error reporting. -/
def mapToPGType (f : Field) (_cls : Class) : String :=
  let t := f.GetBaseType
  if t = "Int" then "INT4"
  else if t = "BigInt" then "INT8"
  else if t = "SmallInt" then "INT2"
  else if t = "Float" then "FLOAT8"
  else if t = "Numeric" then "NUMERIC"
  else if t = "String" then "TEXT"
  else if t = "Boolean" then "BOOL"
  else if t = "Date" then "DATE"
  else if t = "Timestamp" then "TIMESTAMP"
  else if t = "Json" then "JSONB"
  else if t = "Bytes" then "BYTEA"
  else if t = "Char" then "BPCHAR"
  else applyQuotes t

/-- Modelled from the spec: `generateDefaultValue` is missing from the
provided tree.  Callback defaults surface as their SQL forms
(`uuid()`→`gen_random_uuid()`, `now()`→`CURRENT_TIMESTAMP`, per the spec's
reverse mapping table and S2); literal string and enum defaults are
single-quoted (S3 shows `DEFAULT 'USER'`); numeric and boolean literals are
rendered bare. -/
def generateDefaultValue (f : Field) : String :=
  match f.defaultSlot with
  | none => ""
  | some dv =>
    if dv.Typ = "callback" then
      match dv.Value with
      | .str c =>
        if c = "uuid()" then "gen_random_uuid()"
        else if c = "now()" then "CURRENT_TIMESTAMP"
        else c
      | _ => ""
    else
      match dv.Value with
      | .int i => toString i
      | .str s => sq ++ s ++ sq
      | .boolean b => toString b

/-- Modelled from the spec: `generateColumnDefinition` is missing from the
provided tree.  Per the spec, object-kind fields are not columns (the second
Go result is false and the caller skips the field); scalar and enum fields
produce `"name" TYPE[[]] [NOT NULL] [DEFAULT …]` as displayed in scenarios
S2 and S3. -/
def generateColumnDefinition (f : Field) (cls : Class) : Option String :=
  if f.GetKind = FIELD_KIND_OBJECT then none
  else
    some (applyQuotes f.GetName ++ " " ++ mapToPGType f cls ++
      (if f.IsArray then "[]" else "") ++
      (if ¬ f.IsOptional then " NOT NULL" else "") ++
      (if f.HasDefault then " DEFAULT " ++ generateDefaultValue f else ""))

/-- Go `needsPgTrgmExtension`. -/
def needsPgTrgmExtension (toS : SchemaAST) : Bool :=
  toS.Classes.any (·.Attributes.HasTextIndex)

/-- Go `needsPgCryptoExtension`: some field has a default whose stored value
is the `uuid()` callback string. -/
def needsPgCryptoExtension (toS : SchemaAST) : Bool :=
  toS.Classes.any fun cls =>
    cls.Attributes.Fields.any fun f =>
      f.HasDefault &&
        (match f.defaultSlot with
         | some dv => decide (dv.Value = .str DEFAULT_UUID_CALLBACK)
         | none => false)

/-- Go `generateExtensions` (priority 1 statements). -/
def generateExtensions (toS : SchemaAST) : List MigrationStatement :=
  (if needsPgTrgmExtension toS then
     [⟨"CREATE EXTENSION IF NOT EXISTS pg_trgm", "extension", 1⟩]
   else []) ++
  (if needsPgCryptoExtension toS then
     [⟨"CREATE EXTENSION IF NOT EXISTS pgcrypto", "extension", 1⟩]
   else [])

/-- Go `generateCreateEnumSQL`. -/
def generateCreateEnumSQL (e : Enum) : String :=
  "CREATE TYPE \"" ++ e.Name ++ "\" AS ENUM (" ++
    String.intercalate ", " (e.Values.map (fun v => sq ++ v.Name ++ sq)) ++ ")"

/-- Go `generateEnumAlterationSQL`: an `ALTER TYPE … ADD VALUE` per value of
the new enum missing from the old one (priority 4). -/
def generateEnumAlterationSQL (enumName : String) (oldE newE : Enum) :
    List MigrationStatement :=
  let oldValues := oldE.Values.map (·.Name)
  newE.Values.filterMap fun v =>
    if oldValues.contains v.Name then none
    else
      some ⟨"ALTER TYPE \"" ++ enumName ++ "\" ADD VALUE " ++ sq ++ v.Name ++ sq,
        "enum_alter", 4⟩

/-- Go `generateEnumMigrations`: drops of removed enums (priority 2), creates
of added enums (priority 3), value additions for retained enums (priority 4).
Each of the three Go `range` loops walks the `Enums` map in the iteration
order recorded by the association list. -/
def generateEnumMigrations (fromS toS : SchemaAST) : List MigrationStatement :=
  (fromS.Enums.filterMap fun p =>
     if (mapLookup toS.Enums p.1).isSome then none
     else some ⟨"DROP TYPE IF EXISTS \"" ++ p.1 ++ "\" CASCADE", "enum_drop", 2⟩) ++
  (toS.Enums.filterMap fun p =>
     if (mapLookup fromS.Enums p.1).isSome then none
     else some ⟨generateCreateEnumSQL p.2, "enum_create", 3⟩) ++
  (toS.Enums.flatMap fun p =>
     match mapLookup fromS.Enums p.1 with
     | some oldE => generateEnumAlterationSQL p.1 oldE p.2
     | none => [])

/-- Go `generateCreateTableSQL`: the column definitions of the non-object
fields followed by the PRIMARY KEY / UNIQUE / CHECK table constraints. -/
def generateCreateTableSQL (cls : Class) : String :=
  let tableName := applyQuotes cls.Name
  let columns := cls.Attributes.Fields.filterMap fun f => generateColumnDefinition f cls
  let pkFields := cls.GetPrimaryKeyFields
  let constraints :=
    (if pkFields.length > 0 then
       ["PRIMARY KEY (" ++ String.intercalate ", " (pkFields.map applyQuotes) ++ ")"]
     else []) ++
    (if cls.Attributes.HasUnique then
       match cls.Attributes.GetUniqueDirective with
       | some d =>
         match d.GetFields with
         | some fs => ["UNIQUE (" ++ String.intercalate ", " (fs.map applyQuotes) ++ ")"]
         | none => []
       | none => []
     else []) ++
    (if cls.Attributes.HasCheck then
       match cls.Attributes.GetCheckDirective with
       | some d =>
         match d.GetConstraint with
         | some c => ["CHECK (" ++ c ++ ")"]
         | none => []
       | none => []
     else [])
  "CREATE TABLE " ++ tableName ++ " (\n  " ++
    String.intercalate ",\n  " (columns ++ constraints) ++ "\n)"

/-- Lookup of a field by name through a Go map built by inserting every field
in order (a duplicate name overwrites, so the last field wins). -/
def fieldByNameLast (fs : List Field) (n : String) : Option Field :=
  fs.foldl (fun acc f => if f.GetName = n then some f else acc) none

/-- Go `generateColumnAlterationSQL`: type change (priority 9), nullability
toggle (priority 10), and the default clause (priority 11) — a `SET DEFAULT`
is emitted whenever the new field has a default, with no comparison against
the old default. -/
def generateColumnAlterationSQL (tableName : String) (oldField newField : Field)
    (oldClass newClass : Class) : List MigrationStatement :=
  let columnName := applyQuotes newField.GetName
  let oldType := mapToPGType oldField oldClass
  let newType := mapToPGType newField newClass
  (if oldType ≠ newType ∨ oldField.IsArray ≠ newField.IsArray then
     [⟨"ALTER TABLE " ++ tableName ++ " ALTER COLUMN " ++ columnName ++ " TYPE " ++
         newType ++ (if newField.IsArray then "[]" else ""),
       "column_alter_type", 9⟩]
   else []) ++
  (if oldField.IsOptional ≠ newField.IsOptional then
     if newField.IsOptional then
       [⟨"ALTER TABLE " ++ tableName ++ " ALTER COLUMN " ++ columnName ++ " DROP NOT NULL",
         "column_alter_null", 10⟩]
     else
       [⟨"ALTER TABLE " ++ tableName ++ " ALTER COLUMN " ++ columnName ++ " SET NOT NULL",
         "column_alter_not_null", 10⟩]
   else []) ++
  (if oldField.HasDefault ∧ ¬ newField.HasDefault then
     [⟨"ALTER TABLE " ++ tableName ++ " ALTER COLUMN " ++ columnName ++ " DROP DEFAULT",
       "column_drop_default", 11⟩]
   else if newField.HasDefault then
     [⟨"ALTER TABLE " ++ tableName ++ " ALTER COLUMN " ++ columnName ++ " SET DEFAULT " ++
         generateDefaultValue newField,
       "column_set_default", 11⟩]
   else [])

/-- Go `generateTableAlterationSQL`: added columns (priority 7), dropped
columns (priority 8), then the per-column alterations for fields present on
both sides. -/
def generateTableAlterationSQL (oldClass newClass : Class) : List MigrationStatement :=
  let tableName := applyQuotes newClass.Name
  (newClass.Attributes.Fields.filterMap fun f =>
     if (fieldByNameLast oldClass.Attributes.Fields f.GetName).isSome then none
     else
       match generateColumnDefinition f newClass with
       | none => none
       | some colDef =>
         some ⟨"ALTER TABLE " ++ tableName ++ " ADD COLUMN " ++ colDef, "column_add", 7⟩) ++
  (oldClass.Attributes.Fields.filterMap fun f =>
     if (fieldByNameLast newClass.Attributes.Fields f.GetName).isSome then none
     else
       some ⟨"ALTER TABLE " ++ tableName ++ " DROP COLUMN IF EXISTS " ++ applyQuotes f.GetName,
         "column_drop", 8⟩) ++
  (newClass.Attributes.Fields.flatMap fun f =>
     match fieldByNameLast oldClass.Attributes.Fields f.GetName with
     | some oldF => generateColumnAlterationSQL tableName oldF f oldClass newClass
     | none => [])

/-- Go `generateTableMigrations`: table drops (priority 5), table creates
(priority 6), and alterations for classes present in both models. -/
def generateTableMigrations (fromS toS : SchemaAST) : List MigrationStatement :=
  (fromS.Classes.filterMap fun c =>
     if (toS.GetClassByName c.Name).isSome then none
     else some ⟨"DROP TABLE IF EXISTS \"" ++ c.Name ++ "\" CASCADE", "table_drop", 5⟩) ++
  (toS.Classes.filterMap fun c =>
     if (fromS.GetClassByName c.Name).isSome then none
     else some ⟨generateCreateTableSQL c, "table_create", 6⟩) ++
  (toS.Classes.flatMap fun c =>
     match fromS.GetClassByName c.Name with
     | some oldC => generateTableAlterationSQL oldC c
     | none => [])

/-- `HasIndex` through a possibly nil class pointer (`false` for nil, so the
Go condition `newClass == nil || !newClass.HasIndex()` is `¬ optHasIndex`). -/
def optHasIndex : Option Class → Bool
  | none => false
  | some c => c.Attributes.HasIndex

/-- `HasTextIndex` through a possibly nil class pointer. -/
def optHasTextIndex : Option Class → Bool
  | none => false
  | some c => c.Attributes.HasTextIndex

/-- Go `generateIndexDropStatements` (priority 12): note that the dropped
index names are built from the raw (unquoted) directive field names. -/
def generateIndexDropStatements (oldClass : Class) (newClass : Option Class) :
    List MigrationStatement :=
  (if oldClass.Attributes.HasIndex ∧ ¬ optHasIndex newClass then
     match oldClass.Attributes.GetIndexDirective with
     | some d =>
       match d.GetFields with
       | some fields =>
         [⟨"DROP INDEX IF EXISTS idx_" ++ toLowerStr oldClass.Name ++ "_" ++
             toLowerStr (String.intercalate "_" fields) ++ "_index",
           "index_drop", 12⟩]
       | none => []
     | none => []
   else []) ++
  (if oldClass.Attributes.HasTextIndex ∧ ¬ optHasTextIndex newClass then
     match oldClass.Attributes.GetTextIndexDirective with
     | some d =>
       match d.GetFields with
       | some fields =>
         [⟨"DROP INDEX IF EXISTS idx_" ++ toLowerStr oldClass.Name ++ "_" ++
             toLowerStr (String.intercalate "_" fields) ++ "_text_index",
           "index_drop", 12⟩]
       | none => []
     | none => []
   else [])

/-- Go `generateIndexCreateStatements` (priority 13): the index names are
built from the quoted column list (`applyQuotes` applied before the join),
unlike the drop path. -/
def generateIndexCreateStatements (oldClass : Option Class) (newClass : Class) :
    List MigrationStatement :=
  let needsIndex := newClass.Attributes.HasIndex ∧ ¬ optHasIndex oldClass
  let needsTextIndex := newClass.Attributes.HasTextIndex ∧ ¬ optHasTextIndex oldClass
  (if needsIndex then
     match newClass.Attributes.GetIndexDirective with
     | some d =>
       match d.GetFields with
       | some fields =>
         let indexColumns := fields.map applyQuotes
         [⟨"CREATE INDEX idx_" ++ toLowerStr newClass.Name ++ "_" ++
             toLowerStr (String.intercalate "_" indexColumns) ++ "_index" ++
             " ON \"" ++ newClass.Name ++ "\" (" ++
             String.intercalate ", " indexColumns ++ ")",
           "index_create", 13⟩]
       | none => []
     | none => []
   else []) ++
  (if needsTextIndex then
     match newClass.Attributes.GetTextIndexDirective with
     | some d =>
       match d.GetFields with
       | some fields =>
         let indexColumns := fields.map applyQuotes
         [⟨"CREATE INDEX idx_" ++ toLowerStr newClass.Name ++ "_" ++
             toLowerStr (String.intercalate "_" indexColumns) ++ "_text_index" ++
             " ON \"" ++ newClass.Name ++ "\" USING gin ((" ++
             String.intercalate (" || " ++ sq ++ " " ++ sq ++ " || ") indexColumns ++
             ") gin_trgm_ops)",
           "text_index_create", 13⟩]
       | none => []
     | none => []
   else [])

/-- Go `generateIndexMigrations`. -/
def generateIndexMigrations (fromS toS : SchemaAST) : List MigrationStatement :=
  (fromS.Classes.flatMap fun oldC =>
     match toS.GetClassByName oldC.Name with
     | some newC => generateIndexDropStatements oldC (some newC)
     | none => []) ++
  (toS.Classes.flatMap fun newC =>
     match fromS.GetClassByName newC.Name with
     | some oldC => generateIndexCreateStatements (some oldC) newC
     | none => generateIndexCreateStatements none newC)

/-- Go `generateConstraintMigrations` (priority 14): for every relation
bearing field of the new model, the `ADD CONSTRAINT … FOREIGN KEY` statement,
followed by a supporting `CREATE INDEX` unless one of the three suppression
checks fires.  The second and third checks compare the quoted source columns
(`applyQuotes` already applied) against the raw `@@unique` and primary key
field names. -/
def generateConstraintMigrations (toS : SchemaAST) : List MigrationStatement :=
  toS.Classes.flatMap fun newClass =>
    newClass.Attributes.Fields.flatMap fun field =>
      if field.HasRelation then
        match field.relationSlot with
        | some relation =>
          let fkName := "fk_" ++ toLowerStr newClass.Name ++ "_" ++ toLowerStr field.GetName
          let referencedTable := applyQuotes relation.ToClass
          let sourceColumns := relation.From.map applyQuotes
          let targetColumns := relation.To.map applyQuotes
          let constraintParts :=
            ["FOREIGN KEY (" ++ String.intercalate ", " sourceColumns ++ ")",
             "REFERENCES " ++ referencedTable ++ " (" ++
               String.intercalate ", " targetColumns ++ ")"] ++
            (if relation.HasOnDelete then
               ["ON DELETE " ++ mapConstraintAction relation.OnDelete] else []) ++
            (if relation.HasOnUpdate then
               ["ON UPDATE " ++ mapConstraintAction relation.OnUpdate] else [])
          let constraintStmt : MigrationStatement :=
            ⟨"ALTER TABLE \"" ++ newClass.Name ++ "\" ADD CONSTRAINT " ++ fkName ++
               " " ++ String.intercalate " " constraintParts,
             "constraint_add", 14⟩
          let s1 : Bool := ¬ (sourceColumns.length = 1 ∧ field.IsUnique)
          let s2 : Bool :=
            if s1 ∧ newClass.Attributes.HasUnique then
              match newClass.Attributes.GetUniqueDirective with
              | some ud =>
                match ud.GetFields with
                | some uniqueFields =>
                  if sourceColumns.all (fun c => uniqueFields.contains c) then false else s1
                | none => s1
              | none => s1
            else s1
          let s3 : Bool :=
            if s2 then
              let pkFields := newClass.GetPrimaryKeyFields
              if sourceColumns.length > 0 ∧ sourceColumns.all (fun c => pkFields.contains c)
              then false else s2
            else s2
          constraintStmt ::
            (if s3 then
               [⟨"CREATE INDEX idx_" ++ toLowerStr newClass.Name ++ "_" ++
                   toLowerStr (String.intercalate "_" relation.From) ++
                   " ON \"" ++ newClass.Name ++ "\" (" ++
                   String.intercalate ", " (relation.From.map applyQuotes) ++ ")",
                 "fk_index_create", 14⟩]
             else [])
        | none => []
      else []

/-- One insertion step of insertion sort with the strict comparator
`Priority x < Priority y`: `x` lands after every element of priority at most
its own. -/
def insertStmt (x : MigrationStatement) :
    List MigrationStatement → List MigrationStatement
  | [] => [x]
  | y :: ys => if x.Priority < y.Priority then x :: y :: ys else y :: insertStmt x ys

/-- Go `sort.Slice(statements, …Priority[i] < Priority[j]…)` in
`GenerateMigration`.  For slices shorter than 13 elements Go's pdqsort runs
plain insertion sort with the strict comparator, which is the stable
insertion sort implemented here; every concrete statement list evaluated in
the theorems below is that short, and the general theorems only use that the
result is a permutation of the input, which holds for `sort.Slice` with any
algorithm. -/
def sortStmts (l : List MigrationStatement) : List MigrationStatement :=
  l.foldl (fun acc x => insertStmt x acc) []

/-- Concatenation of the five generator outputs in the order
`GenerateMigration` appends them, before sorting. -/
def generateMigrationRaw (fromS toS : SchemaAST) : List MigrationStatement :=
  generateExtensions toS ++
    generateEnumMigrations fromS toS ++
    generateTableMigrations fromS toS ++
    generateIndexMigrations fromS toS ++
    generateConstraintMigrations toS

/-- The statement list of `GenerateMigration` after the priority sort. -/
def GenerateMigrationStatements (fromS toS : SchemaAST) : List MigrationStatement :=
  sortStmts (generateMigrationRaw fromS toS)

/-- Go `MigrationEngine.GenerateMigration`: sort by priority, keep the
non-empty SQL texts, join with `;` and blank lines, terminate with `;`.
No error path of the Go function is reachable (every generator returns a nil
error). -/
def GenerateMigration (fromS toS : SchemaAST) : String :=
  String.intercalate ";\n\n"
    (((GenerateMigrationStatements fromS toS).filter (fun st => st.SQL ≠ "")).map
      (fun st => st.SQL)) ++ ";"

/-! ### Concrete instances used by the claims -/

/-- Field-level `@primaryKey` directive value. -/
def pkDirective : FieldDirective := ⟨ATTR_PRIMARY_KEY, none⟩

/-- Builder for a scalar field as the field parser produces it. -/
def mkScalarField (name ty : String) (dirs : List FieldDirective)
    (dv : Option DefaultValue) (pos : Nat) : Field :=
  ⟨some ⟨name, ty, FIELD_KIND_SCALAR, false, false, dirs, dv, none⟩, pos⟩

/-- Builder for a non-optional object field carrying a `@relation`. -/
def mkRelationField (name ty : String) (rel : Relation) (pos : Nat) : Field :=
  ⟨some ⟨name, ty, FIELD_KIND_OBJECT, false, false, [], none, some rel⟩, pos⟩

/-- The `Role` enum of scenario S1. -/
def roleEnum : Enum := ⟨"Role", [⟨"USER", 1⟩, ⟨"ADMIN", 2⟩], 0⟩

/-- A second enum, used for the determinism counterexample. -/
def statusEnum : Enum := ⟨"Status", [⟨"OPEN", 1⟩, ⟨"DONE", 2⟩], 1⟩

/-- The empty schema model. -/
def emptySchema : SchemaAST := ⟨[], []⟩

/-- Old model holding the enums `Role` and `Status`, with the map iterated in
that order. -/
def c1From1 : SchemaAST := ⟨[("Role", roleEnum), ("Status", statusEnum)], []⟩

/-- The same map contents iterated in the other order. -/
def c1From2 : SchemaAST := ⟨[("Status", statusEnum), ("Role", roleEnum)], []⟩

/-- Target class `User { id Int @primaryKey }`. -/
def c2UserClass : Class :=
  ⟨"User", ⟨[mkScalarField "id" "Int" [pkDirective] none 0], []⟩, 0⟩

/-- Relation `[odId] → [User.id]` with default actions. -/
def c2OrderRelation : Relation :=
  ⟨["odId"], "Order", ["id"], "User", ON_DELETE_NO_ACTION, ON_DELETE_NO_ACTION, ""⟩

/-- Class `Order` whose FK column `odId` is exactly its primary key. -/
def c2OrderClass : Class :=
  ⟨"Order",
   ⟨[mkScalarField "odId" "Int" [pkDirective] none 0,
     mkRelationField "user" "User" c2OrderRelation 1], []⟩, 1⟩

/-- New model for the FK-supporting-index claim. -/
def c2To : SchemaAST := ⟨[], [c2UserClass, c2OrderClass]⟩

/-- Scenario S4, class `A`'s relation to `B`. -/
def s4RelationToB : Relation :=
  ⟨["bId"], "A", ["id"], "B", ON_DELETE_NO_ACTION, ON_DELETE_NO_ACTION, ""⟩

/-- Scenario S4, class `B`'s relation to `A`. -/
def s4RelationToA : Relation :=
  ⟨["aId"], "B", ["id"], "A", ON_DELETE_NO_ACTION, ON_DELETE_NO_ACTION, ""⟩

/-- Scenario S4, class `A { id Int @primaryKey bId Int b B @relation(…) }`. -/
def s4ClassA : Class :=
  ⟨"A",
   ⟨[mkScalarField "id" "Int" [pkDirective] none 0,
     mkScalarField "bId" "Int" [] none 1,
     mkRelationField "b" "B" s4RelationToB 2], []⟩, 0⟩

/-- Scenario S4, class `B`, symmetric to `A`. -/
def s4ClassB : Class :=
  ⟨"B",
   ⟨[mkScalarField "id" "Int" [pkDirective] none 0,
     mkScalarField "aId" "Int" [] none 1,
     mkRelationField "a" "A" s4RelationToA 2], []⟩, 1⟩

/-- The two-class model of scenario S4 (a required cycle). -/
def s4Schema : SchemaAST := ⟨[], [s4ClassA, s4ClassB]⟩

/-- Scenario S5's relation `[userId] → [User.id]` with `onDelete: SetNull`. -/
def s5Relation : Relation :=
  ⟨["userId"], "Order", ["id"], "User", ON_DELETE_SET_NULL, ON_DELETE_NO_ACTION, ""⟩

/-- Per-field invocation of the relation-consistency check exactly as
`validateRelationAttribute` performs it: the optionality handed to
`validateRelationConsistency` is `fieldDef.IsOptional` of the field carrying
the `@relation` attribute, not of the relation's source column.  Returns the
error raised while parsing this field, if any. -/
def fieldRelationConsistency (f : Field) : Option RelConsErr :=
  match f.relationSlot with
  | none => none
  | some r =>
    match validateRelationConsistency r f.IsOptional with
    | .error e => some e
    | .ok _ => none

/-- The relation-consistency errors raised while parsing a class's fields, in
field order. -/
def classRelationErrors (c : Class) : List RelConsErr :=
  c.Attributes.Fields.filterMap fieldRelationConsistency

/-- Scenario S5's class `Order` as written: both the source column `userId`
and the carrying field `user` are required. -/
def s5OrderClass : Class :=
  ⟨"Order",
   ⟨[mkScalarField "id" "Int" [pkDirective] none 0,
     mkScalarField "userId" "Int" [] none 1,
     mkRelationField "user" "User" s5Relation 2], []⟩, 0⟩

/-- Optional scalar field `userId Int?`: the relation's source column, made
optional. -/
def c7OptionalUserId : Field :=
  ⟨some ⟨"userId", "Int", FIELD_KIND_SCALAR, true, false, [], none, none⟩, 1⟩

/-- Class `Order` whose source column `userId` is optional while the carrying
field `user` is required. -/
def c7OptSourceClass : Class :=
  ⟨"Order",
   ⟨[mkScalarField "id" "Int" [pkDirective] none 0,
     c7OptionalUserId,
     mkRelationField "user" "User" s5Relation 2], []⟩, 0⟩

/-- Optional object field `user User?` carrying scenario S5's relation. -/
def c7OptionalCarrier : Field :=
  ⟨some ⟨"user", "User", FIELD_KIND_OBJECT, true, false, [], none, some s5Relation⟩, 2⟩

/-- Class `Order` whose source column `userId` is required while the carrying
field `user` is optional. -/
def c7ReqSourceClass : Class :=
  ⟨"Order",
   ⟨[mkScalarField "id" "Int" [pkDirective] none 0,
     mkScalarField "userId" "Int" [] none 1,
     c7OptionalCarrier], []⟩, 0⟩

/-- The `@@textIndex([title, body])` directive of scenario S6. -/
def c5TextIndexDirective : ClassDirective :=
  ⟨CLASS_ATTR_TEXT_INDEX, "", some (.fields ["title", "body"])⟩

/-- Class `Class` with String fields and a `@@textIndex([title, body])`. -/
def c5Class : Class :=
  ⟨"Class",
   ⟨[mkScalarField "id" "String" [pkDirective] none 0,
     mkScalarField "title" "String" [] none 1,
     mkScalarField "body" "String" [] none 2],
    [c5TextIndexDirective]⟩, 0⟩

/-- Model containing only `c5Class`. -/
def c5To : SchemaAST := ⟨[], [c5Class]⟩

/-- Text index statement actually emitted for `c5Class`: the index name is
built from the quoted column names, so the quotes end up inside the name. -/
def c5EmittedIndexSQL : String :=
  "CREATE INDEX idx_class_\"title\"_\"body\"_text_index ON \"Class\" USING gin ((\"title\" || " ++
    sq ++ " " ++ sq ++ " || \"body\") gin_trgm_ops)"

/-- Text index statement the claim (spec scenario S6) prescribes: the same
statement with the unquoted index name. -/
def c5ClaimedIndexSQL : String :=
  "CREATE INDEX idx_class_title_body_text_index ON \"Class\" USING gin ((\"title\" || " ++
    sq ++ " " ++ sq ++ " || \"body\") gin_trgm_ops)"

/-- A literal integer default. -/
def c10Default : DefaultValue := ⟨.int 5, "literal", "Int", false⟩

/-- Class `C { id Int @primaryKey }`, the old version. -/
def c10OldClass : Class :=
  ⟨"C", ⟨[mkScalarField "id" "Int" [pkDirective] none 0], []⟩, 0⟩

/-- Class `C` with an added field `x Int @default(5)`, the new version. -/
def c10NewClass : Class :=
  ⟨"C",
   ⟨[mkScalarField "id" "Int" [pkDirective] none 0,
     mkScalarField "x" "Int" [] (some c10Default) 1], []⟩, 0⟩

/-- The `SET DEFAULT` statement `generateColumnAlterationSQL` emits for a
defaulted new field of a class. -/
def setDefaultStmt (nc : Class) (f : Field) : MigrationStatement :=
  ⟨"ALTER TABLE " ++ applyQuotes nc.Name ++ " ALTER COLUMN " ++
     applyQuotes f.GetName ++ " SET DEFAULT " ++ generateDefaultValue f,
   "column_set_default", 11⟩

/-- Old model for the default-emission claim. -/
def c10From : SchemaAST := ⟨[], [c10OldClass]⟩

/-- New model for the default-emission claim; also serves as the model `M`
of the `diff(M, M)` consequence. -/
def c10To : SchemaAST := ⟨[], [c10NewClass]⟩

/-! ### Helper lemmas -/

/-- Inserting a statement is a permutation of consing it. -/
theorem insertStmt_perm (x : MigrationStatement) :
    ∀ l : List MigrationStatement, List.Perm (insertStmt x l) (x :: l) := by
  intro l
  induction l with
  | nil => simp [insertStmt]
  | cons y ys ih =>
    unfold insertStmt
    split
    · exact List.Perm.refl _
    · exact ((ih.cons y).trans (List.Perm.swap x y ys))

/-- The fold of insertions permutes the accumulator and the input. -/
theorem foldl_insertStmt_perm :
    ∀ (l acc : List MigrationStatement),
      List.Perm (l.foldl (fun a x => insertStmt x a) acc) (acc ++ l) := by
  intro l
  induction l with
  | nil => intro acc; simp
  | cons x xs ih =>
    intro acc
    have h1 := ih (insertStmt x acc)
    have h2 : List.Perm (insertStmt x acc ++ xs) ((x :: acc) ++ xs) :=
      (insertStmt_perm x acc).append_right xs
    have h3 : List.Perm ((x :: acc) ++ xs) (acc ++ x :: xs) := List.perm_middle.symm
    exact (h1.trans h2).trans h3

/-- The embedded priority sort permutes its input. -/
theorem sortStmts_perm (l : List MigrationStatement) :
    List.Perm (sortStmts l) l := by
  simpa using foldl_insertStmt_perm l []

/-- Membership transfers across the priority sort. -/
theorem mem_sortStmts {st : MigrationStatement} {l : List MigrationStatement}
    (h : st ∈ l) : st ∈ sortStmts l :=
  (sortStmts_perm l).mem_iff.mpr h

/-- A field's `HasRelation` flag coincides with its relation slot being set. -/
theorem Field.hasRelation_iff (f : Field) :
    f.HasRelation = true ↔ f.relationSlot.isSome := by
  cases h : f.AttrDef <;> simp [Field.HasRelation, Field.relationSlot, h]

/-- A field is a foreign key exactly when its kind is `object` and its
relation slot is set. -/
theorem Field.isForeignKey_iff (f : Field) :
    f.IsForeignKey = true ↔
      (f.GetKind = FIELD_KIND_OBJECT ∧ f.relationSlot.isSome) := by
  cases h : f.AttrDef with
  | none =>
    simp [Field.IsForeignKey, Field.GetKind, Field.relationSlot, h, FIELD_KIND_OBJECT]
  | some ad =>
    simp [Field.IsForeignKey, Field.GetKind, Field.relationSlot, h,
      Field.HasRelation]

/-- First-match lookup by a key function returns the element itself when the
keys are pairwise distinct. -/
theorem find?_eq_of_nodup_keys {α : Type} (key : α → String) :
    ∀ (l : List α), (l.map key).Nodup → ∀ b ∈ l,
      l.find? (fun x => key x = key b) = some b := by
  intro l
  induction l with
  | nil => intro _ b hb; cases hb
  | cons c cs ih =>
    intro hnd b hb
    have hnd' := hnd
    rw [List.map_cons, List.nodup_cons] at hnd'
    rcases List.mem_cons.mp hb with rfl | hb'
    · simp [List.find?]
    · have hne : key c ≠ key b := by
        intro he
        exact hnd'.1 (he ▸ List.mem_map_of_mem key hb')
      have hd : (decide (key c = key b)) = false := by
        simp [hne]
      simp only [List.find?, hd]
      exact ih hnd'.2 b hb'

/-- A field present in a list is found by the last-match lookup under its own
name. -/
theorem fieldByNameLast_isSome_of_mem {f : Field} :
    ∀ {fs : List Field}, f ∈ fs → (fieldByNameLast fs f.GetName).isSome := by
  have haux : ∀ (fs : List Field) (acc : Option Field), acc.isSome →
      (fs.foldl (fun a g => if g.GetName = f.GetName then some g else a) acc).isSome := by
    intro fs
    induction fs with
    | nil => intro acc h; exact h
    | cons g gs ih =>
      intro acc h
      simp only [List.foldl_cons]
      split
      · exact ih _ rfl
      · exact ih _ h
  intro fs hf
  induction fs with
  | nil => cases hf
  | cons g gs ih =>
    rcases List.mem_cons.mp hf with rfl | hf'
    · simp only [fieldByNameLast, List.foldl_cons, if_pos rfl]
      exact haux gs (some f) rfl
    · simp only [fieldByNameLast, List.foldl_cons]
      split
      · exact haux gs _ rfl
      · exact ih hf'

/-! ### Claim C1: determinism of `GenerateMigration` -/

/-- C1.  The claim says `GenerateMigration` is a pure function of the model
pair, with byte-identical output across runs.  It is not: the enum loops of
`generateEnumMigrations` iterate the Go map `Enums`, whose per-run iteration
order Go randomises.  `c1From1` and `c1From2` are the same map contents (the
association lists are permutations of each other) iterated in the two orders,
and the emitted SQL differs between them, so two runs on identical inputs can
produce different bytes.  This contradicts the spec's stated invariant, which
the code clearly intends (migration files are compared byte-wise), so the
claim is recorded as a code bug, evidenced here by evaluating the engine at
the two orders. -/
theorem c1_generateMigration_depends_on_enum_iteration_order :
    List.Perm c1From1.Enums c1From2.Enums ∧
      c1From1.Classes = c1From2.Classes ∧
      GenerateMigration c1From1 emptySchema ≠ GenerateMigration c1From2 emptySchema := by
  refine ⟨?_, by decide, by decide⟩
  decide

/-! ### Claim C2: the FK-supporting index exceptions -/

/-- C2.  The claim's exception (a): when the relation's source columns are
exactly the class's primary-key columns, no supporting `CREATE INDEX` is
emitted.  In `c2To`, class `Order`'s FK column list `[odId]` equals its
primary-key column list, yet the engine still emits
`CREATE INDEX idx_order_odid ON "Order" ("odId")`: the suppression checks
compare the quoted source columns (`"odId"` with quotes) against the raw
primary-key and `@@unique` field names (`odId`), so exceptions (a) and (c)
can never fire, and exception (b) tests the `unique` directive of the
relation-bearing object field instead of the FK column.  The code evaluated
at this failing input shows the unwanted statement in both the constraint
generator's output and the full migration. -/
theorem c2_fk_index_emitted_despite_pk_columns :
    c2OrderRelation.From = c2OrderClass.GetPrimaryKeyFields ∧
      (⟨"CREATE INDEX idx_order_odid ON \"Order\" (\"odId\")",
        "fk_index_create", 14⟩ : MigrationStatement) ∈
        generateConstraintMigrations c2To ∧
      (⟨"CREATE INDEX idx_order_odid ON \"Order\" (\"odId\")",
        "fk_index_create", 14⟩ : MigrationStatement) ∈
        GenerateMigrationStatements emptySchema c2To := by
  refine ⟨by decide, by decide, by decide⟩

/-! ### Claim C5: the text-index emission -/

/-- C5.  For `diff(empty, c5To)` the engine does emit the priority-1
`CREATE EXTENSION IF NOT EXISTS pg_trgm` statement, but the priority-13 text
index statement carries the name `idx_class_"title"_"body"_text_index`: the
create path joins the column names after quoting them, embedding double
quotes in the index name, whereas the claim (and the engine's own index-drop
path, which joins the raw names) uses `idx_class_title_body_text_index`.
The statement of the exact claimed form appears nowhere in the emission. -/
theorem c5_text_index_name_built_from_quoted_columns :
    (⟨"CREATE EXTENSION IF NOT EXISTS pg_trgm", "extension", 1⟩ : MigrationStatement) ∈
        GenerateMigrationStatements emptySchema c5To ∧
      (⟨c5EmittedIndexSQL, "text_index_create", 13⟩ : MigrationStatement) ∈
        GenerateMigrationStatements emptySchema c5To ∧
      (∀ st ∈ GenerateMigrationStatements emptySchema c5To, st.SQL ≠ c5ClaimedIndexSQL) := by
  refine ⟨by decide, by decide, by decide⟩

/-! ### Claim C7: `onDelete: SetNull` requires an optional source field -/

/-- C7.  The requires-optional check for `onDelete: SetNull` is keyed on the
optionality of the field carrying the `@relation` attribute, not on the
relation's source column (the claim's source field), so on schemas where the
two fields differ in optionality the behaviour diverges from the claim: with
`userId Int?` optional and the required carrying field `user` the field parse
is rejected with the requires-optional error although the source field is
optional, while with `userId Int` required and the optional carrying field
`user User?` the parse is accepted although the source field is not optional.
Scenario S5 itself, where both fields are required, is rejected as the claim
says. -/
theorem c7_requires_optional_checks_carrying_field :
    (s5Relation.From = ["userId"] ∧ s5Relation.OnDelete = ON_DELETE_SET_NULL) ∧
    ((fieldByNameLast c7OptSourceClass.Attributes.Fields "userId").map Field.IsOptional
        = some true ∧
      classRelationErrors c7OptSourceClass = [.requiresOptional]) ∧
    ((fieldByNameLast c7ReqSourceClass.Attributes.Fields "userId").map Field.IsOptional
        = some false ∧
      classRelationErrors c7ReqSourceClass = []) ∧
    classRelationErrors s5OrderClass = [.requiresOptional] := by
  exact ⟨⟨rfl, rfl⟩, ⟨by decide, by decide⟩, ⟨by decide, by decide⟩, by decide⟩

/-! ### Claim C8: the reader never fails -/

/-- C8 counterexample.  The claim reads `separate` as failing with
InvalidSyntax when a recognised keyword occurs but no block can be extracted.
The Go function returns only the two joined strings — it has no error result
at all — and on the input `enum Foo`, where the keyword occurs with no
extractable block, it returns the ordinary empty pair. -/
theorem c8_separate_returns_empty_on_bare_keyword :
    separateEnumsAndClassesWithRegex "enum Foo" = ("", "") := by
  decide

/-! ### Claim C9: SmallInt default bounds -/

/-- C9 counterexample.  The claim asserts that ±32768 is rejected;
`-32768` is the signed-16 minimum and `validateIntDefault` accepts it. -/
theorem c9_minus_32768_accepted :
    validateIntDefault "-32768" "SmallInt" =
      .ok ⟨.int (-32768), "literal", "SmallInt", false⟩ := by
  decide

/-! ### Claim C10: unconditional `SET DEFAULT` -/

/-- C10 counterexample.  Class `C` is present in both models and field `x` of
its new version carries a default, yet the emission contains no
`column_set_default` statement: `x` is new to the class, so it is emitted as
an `ADD COLUMN` (with an inline DEFAULT clause) and never reaches the
column-alteration path the claim describes. -/
theorem c10_new_defaulted_field_gets_no_set_default :
    c10To.GetClassByName "C" = some c10NewClass ∧
      c10From.GetClassByName "C" = some c10OldClass ∧
      (∃ f, c10NewClass.Attributes.GetFieldByName "x" = some f ∧ f.HasDefault = true) ∧
      (∀ st ∈ GenerateMigrationStatements c10From c10To,
        st.Typ ≠ "column_set_default" ∧
          st.SQL ≠ "ALTER TABLE \"C\" ALTER COLUMN \"x\" SET DEFAULT 5") := by
  refine ⟨by decide, by decide, ?_, by decide⟩
  exact ⟨mkScalarField "x" "Int" [] (some c10Default) 1, by decide, by decide⟩

/-! ### Claim C4: enum ordinals -/

/-- A successful run of the `ValidateEnum` value loop forces the positions to
be the contiguous range starting at one past the loop index. -/
theorem validateEnumValuesLoop_positions :
    ∀ (vs : List EnumValue) (i : Nat) (seen : List String),
      validateEnumValuesLoop vs i seen = .ok () →
      vs.map EnumValue.Position = List.range' (i + 1) vs.length := by
  intro vs
  induction vs with
  | nil => intro i seen _; rfl
  | cons ev rest ih =>
    intro i seen h
    unfold validateEnumValuesLoop at h
    split at h
    · cases h
    · split at h
      · cases h
      · split at h
        · cases h
        · rename_i hne
          push_neg at hne
          rw [List.map_cons, List.length_cons, List.range'_succ, hne]
          exact congrArg (List.cons (i + 1)) (ih (i + 1) _ h)

/-- A successfully parsed enum passed the whole-enum validator. -/
theorem parseEnum_validate (s : String) (pos : Nat) (e : Enum)
    (h : ParseEnum s pos = .ok e) : ValidateEnum e = .ok () := by
  unfold ParseEnum at h
  cases hm : matchEnumDef (trimSpaceGo s) with
  | none => rw [hm] at h; cases h
  | some p =>
    rw [hm] at h
    obtain ⟨namePart, valuesPart⟩ := p
    simp only at h
    split at h
    · cases h
    · split at h
      · cases h
      · split at h
        · cases h
        · split at h
          · cases h
          · rename_i u heq
            injection h with h'
            subst h'
            cases u
            exact heq

/-- C4.  Every enum block accepted by `ParseEnum` yields values whose
positions are exactly `1..N` in source order, and parsing the block
`enum Role { USER ADMIN }` succeeds with values `USER(1), ADMIN(2)`. -/
theorem c4_enum_ordinals :
    (∀ (s : String) (pos : Nat) (e : Enum), ParseEnum s pos = .ok e →
      e.Values.map EnumValue.Position = List.range' 1 e.Values.length) ∧
      ParseEnum "enum Role { USER ADMIN }" 0 = .ok roleEnum := by
  refine ⟨?_, by decide⟩
  intro s pos e h
  have hv := parseEnum_validate s pos e h
  unfold ValidateEnum at hv
  split at hv
  · cases hv
  · split at hv
    · cases hv
    · split at hv
      · cases hv
      · exact validateEnumValuesLoop_positions e.Values 0 [] hv

/-- Witness for C4: the invariant applied to the parse of scenario S1. -/
theorem c4_enum_ordinals_witness :
    roleEnum.Values.map EnumValue.Position = List.range' 1 roleEnum.Values.length :=
  c4_enum_ordinals.1 "enum Role { USER ADMIN }" 0 roleEnum c4_enum_ordinals.2

/-! ### Claim C9 (amended): SmallInt default bounds -/

/-- C9 (amended).  `validateIntDefault` on a SmallInt field accepts exactly
the base-10 integers of the signed 16-bit range: every accepted value lies in
`[-32768, 32767]`, every in-range parse is accepted, the two bounds are
accepted, and `32768` and `-32769` are rejected with the out-of-range
error. -/
theorem c9_smallint_range_exact :
    (∀ (s : String) (v : DefaultValue),
      validateIntDefault s "SmallInt" = .ok v →
      ∃ n : Int, v.Value = .int n ∧ -32768 ≤ n ∧ n ≤ 32767) ∧
      (∀ (s : String) (n : Int),
        parseInt64 (trimSpaceGo (if stringPatternMatch s then stripOuterChars s else s)) =
            some n →
        -32768 ≤ n → n ≤ 32767 →
        validateIntDefault s "SmallInt" = .ok ⟨.int n, "literal", "SmallInt", false⟩) ∧
      validateIntDefault "-32768" "SmallInt" =
        .ok ⟨.int (-32768), "literal", "SmallInt", false⟩ ∧
      validateIntDefault "32767" "SmallInt" =
        .ok ⟨.int 32767, "literal", "SmallInt", false⟩ ∧
      validateIntDefault "32768" "SmallInt" = .error .outOfRange ∧
      validateIntDefault "-32769" "SmallInt" = .error .outOfRange := by
  refine ⟨?_, ?_, by decide, by decide, by decide, by decide⟩
  · intro s v h
    unfold validateIntDefault at h
    split at h
    · cases h
    · split at h
      · cases h
      · split at h
        · cases h
        · rename_i h1 h2
          injection h with h'
          subst h'
          have hb : ¬ (_ < (-32768 : Int) ∨ _ > (32767 : Int)) := fun hc => h1 ⟨rfl, hc⟩
          push_neg at hb
          exact ⟨_, rfl, hb.1, hb.2⟩
  · intro s n hp hlo hhi
    unfold validateIntDefault
    have hA : ¬ ("SmallInt" = "SmallInt" ∧ (n < -32768 ∨ n > 32767)) := by
      rintro ⟨-, hq⟩
      omega
    have hB : ¬ ("SmallInt" = "Int" ∧ (n < -2147483648 ∨ n > 2147483647)) := by
      rintro ⟨he, -⟩
      exact absurd he (by decide)
    simp only [hp, if_neg hA, if_neg hB]
    rw [if_neg]
    rintro ⟨-, hq⟩
    omega

/-- Witness for C9: the soundness direction applied to the accepted lower
bound. -/
theorem c9_smallint_range_exact_witness :
    ∃ n : Int,
      (⟨.int (-32768), "literal", "SmallInt", false⟩ : DefaultValue).Value = .int n ∧
        -32768 ≤ n ∧ n ≤ 32767 :=
  c9_smallint_range_exact.1 "-32768" _ c9_smallint_range_exact.2.2.1

/-! ### Claim C10 (amended): unconditional `SET DEFAULT` for retained fields -/

/-- The column-alteration generator emits the `SET DEFAULT` statement for any
new field carrying a default, with no comparison against the old field's
default. -/
theorem setDefault_mem_columnAlteration (tableName : String) (oldF f : Field)
    (oc nc : Class) (hd : f.HasDefault = true) :
    (⟨"ALTER TABLE " ++ tableName ++ " ALTER COLUMN " ++ applyQuotes f.GetName ++
        " SET DEFAULT " ++ generateDefaultValue f,
      "column_set_default", 11⟩ : MigrationStatement) ∈
      generateColumnAlterationSQL tableName oldF f oc nc := by
  simp only [generateColumnAlterationSQL]
  refine List.mem_append.mpr (Or.inr ?_)
  have h1 : ¬ ((oldF.HasDefault : Prop) ∧ ¬ (f.HasDefault : Prop)) := by
    rintro ⟨-, hn⟩
    exact hn hd
  rw [if_neg h1, if_pos hd]
  exact List.mem_singleton.mpr rfl

/-- The table-alteration generator contains the `SET DEFAULT` statement for
any new-class field with a default that also exists (by name) in the old
class. -/
theorem setDefault_mem_tableAlteration (oc nc : Class) (f : Field)
    (hf : f ∈ nc.Attributes.Fields)
    (hold : (fieldByNameLast oc.Attributes.Fields f.GetName).isSome = true)
    (hd : f.HasDefault = true) :
    setDefaultStmt nc f ∈ generateTableAlterationSQL oc nc := by
  simp only [generateTableAlterationSQL]
  refine List.mem_append.mpr (Or.inr ?_)
  rw [List.mem_flatMap]
  refine ⟨f, hf, ?_⟩
  obtain ⟨oldF, holdF⟩ := Option.isSome_iff_exists.mp hold
  rw [holdF]
  exact setDefault_mem_columnAlteration (applyQuotes nc.Name) oldF f oc nc hd

/-- C10 (amended).  For every class present in both models and every field of
its new version that also exists (by name) in its old version and carries a
default, `GenerateMigration`'s statement list contains the
`ALTER TABLE … SET DEFAULT` statement — even when the old field carries the
identical default; consequently `diff(M, M)` is non-empty whenever some field
of a class of `M` has a default.  (A defaulted field that is new to the class
is emitted as `ADD COLUMN` instead, which is what the counterexample
exhibits.) -/
theorem c10_set_default_emitted_for_retained_fields :
    (∀ (fromS toS : SchemaAST) (cOld cNew : Class) (f : Field),
      cNew ∈ toS.Classes →
      fromS.GetClassByName cNew.Name = some cOld →
      f ∈ cNew.Attributes.Fields →
      (fieldByNameLast cOld.Attributes.Fields f.GetName).isSome = true →
      f.HasDefault = true →
      setDefaultStmt cNew f ∈ GenerateMigrationStatements fromS toS) ∧
      (∀ (M : SchemaAST) (c : Class) (f : Field),
        c ∈ M.Classes → M.GetClassByName c.Name = some c →
        f ∈ c.Attributes.Fields → f.HasDefault = true →
        GenerateMigrationStatements M M ≠ []) := by
  have hmain : ∀ (fromS toS : SchemaAST) (cOld cNew : Class) (f : Field),
      cNew ∈ toS.Classes →
      fromS.GetClassByName cNew.Name = some cOld →
      f ∈ cNew.Attributes.Fields →
      (fieldByNameLast cOld.Attributes.Fields f.GetName).isSome = true →
      f.HasDefault = true →
      setDefaultStmt cNew f ∈ GenerateMigrationStatements fromS toS := by
    intro fromS toS cOld cNew f hc hfind hf hold hd
    apply mem_sortStmts
    unfold generateMigrationRaw
    refine List.mem_append.mpr (Or.inl (List.mem_append.mpr (Or.inl
      (List.mem_append.mpr (Or.inr ?_)))))
    simp only [generateTableMigrations]
    refine List.mem_append.mpr (Or.inr ?_)
    rw [List.mem_flatMap]
    refine ⟨cNew, hc, ?_⟩
    rw [hfind]
    exact setDefault_mem_tableAlteration cOld cNew f hf hold hd
  refine ⟨hmain, ?_⟩
  intro M c f hc hfind hf hd
  exact List.ne_nil_of_mem
    (hmain M M c c f hc hfind hf (fieldByNameLast_isSome_of_mem hf) hd)

/-- Witness for C10 at the concrete model: `diff(c10To, c10To)` contains the
`SET DEFAULT` statement for the defaulted field `x` of class `C`. -/
theorem c10_set_default_emitted_witness :
    setDefaultStmt c10NewClass (mkScalarField "x" "Int" [] (some c10Default) 1) ∈
      GenerateMigrationStatements c10To c10To :=
  c10_set_default_emitted_for_retained_fields.1 c10To c10To c10NewClass c10NewClass
    (mkScalarField "x" "Int" [] (some c10Default) 1)
    (by decide) (by decide) (by decide) (by decide) (by decide)

/-! ### Claim C3: circular dependencies -/

/-- Characterisation of the per-field circular dependency check: it fires
exactly when the field's base type resolves to a class, the field carries a
relation, and the target class holds a non-optional foreign key back to the
source class while the field itself is non-optional. -/
theorem circErrAt_isSome_iff (s : SchemaAST) (cls : Class) (fld : Field) :
    (circErrAt s cls fld).isSome = true ↔
      (∃ T, s.GetClassByName fld.GetBaseType = some T ∧
        fld.relationSlot.isSome = true ∧
        ∃ tf ∈ T.Attributes.Fields,
          tf.IsForeignKey = true ∧ tf.GetBaseType = cls.Name ∧
            tf.IsOptional = false ∧ fld.IsOptional = false) := by
  constructor
  · intro h
    unfold circErrAt at h
    split at h
    · cases h
    · rename_i T hT
      split at h
      · cases h
      · rename_i r hr
        split at h
        · rename_i hc
          rw [List.any_eq_true] at hc
          obtain ⟨tf, htf, hp⟩ := hc
          rw [decide_eq_true_iff] at hp
          refine ⟨T, hT, by rw [hr]; rfl, tf, htf, hp.1, hp.2.1, ?_, ?_⟩
          · cases hto : tf.IsOptional
            · rfl
            · exact absurd hto hp.2.2.1
          · cases hfo : fld.IsOptional
            · rfl
            · exact absurd hfo hp.2.2.2
        · cases h
  · rintro ⟨T, hT, hrel, tf, htf, hfk, hbt, hopt, hfopt⟩
    unfold circErrAt
    obtain ⟨r, hr⟩ := Option.isSome_iff_exists.mp hrel
    simp only [hT, hr]
    rw [if_pos]
    · rfl
    · rw [List.any_eq_true]
      refine ⟨tf, htf, ?_⟩
      rw [decide_eq_true_iff]
      exact ⟨hfk, hbt, by simp [hopt], by simp [hfopt]⟩

/-- C3.  For a model with pairwise distinct class names in which every
relation-bearing field has object kind (both are invariants of validated
models), the circular dependency pass reports at least one error exactly when
some pair of classes `(A, B)` carries a non-optional relation field in each
direction; and the two-class schema of scenario S4 is rejected. -/
theorem c3_circular_dependency_pairs :
    (∀ s : SchemaAST, (s.Classes.map Class.Name).Nodup →
      (∀ c ∈ s.Classes, ∀ f ∈ c.Attributes.Fields,
        f.relationSlot.isSome = true → f.GetKind = FIELD_KIND_OBJECT) →
      (circularDependencyErrors s ≠ [] ↔
        ∃ A ∈ s.Classes, ∃ B ∈ s.Classes, RequiredRelTo A B ∧ RequiredRelTo B A)) ∧
      circularDependencyErrors s4Schema ≠ [] := by
  refine ⟨?_, by decide⟩
  intro s hnd hkind
  constructor
  · intro hne
    obtain ⟨e, he⟩ := List.exists_mem_of_ne_nil _ hne
    unfold circularDependencyErrors at he
    rw [List.mem_flatMap] at he
    obtain ⟨cls, hcls, he2⟩ := he
    rw [List.mem_filterMap] at he2
    obtain ⟨fld, hfld, hsome⟩ := he2
    have hs : (circErrAt s cls fld).isSome = true := by rw [hsome]; rfl
    rw [circErrAt_isSome_iff] at hs
    obtain ⟨T, hT, hrel, tf, htf, hfk, hbt, hopt, hfopt⟩ := hs
    have hTmem : T ∈ s.Classes := List.mem_of_find?_eq_some hT
    have hTname : T.Name = fld.GetBaseType := by
      have := List.find?_some hT
      simpa using this
    refine ⟨cls, hcls, T, hTmem, ⟨fld, hfld, hTname.symm, hrel, hfopt⟩, ?_⟩
    have hrel' := (Field.isForeignKey_iff tf).mp hfk
    exact ⟨tf, htf, hbt, hrel'.2, hopt⟩
  · rintro ⟨A, hA, B, hB, ⟨fA, hfA, hAB, hArel, hAopt⟩, fB, hfB, hBA, hBrel, hBopt⟩
    have hfind : s.GetClassByName fA.GetBaseType = some B := by
      rw [hAB]
      have := find?_eq_of_nodup_keys Class.Name s.Classes hnd B hB
      simpa [SchemaAST.GetClassByName] using this
    have hsome : (circErrAt s A fA).isSome = true := by
      rw [circErrAt_isSome_iff]
      refine ⟨B, hfind, hArel, fB, hfB, ?_, hBA, hBopt, hAopt⟩
      exact (Field.isForeignKey_iff fB).mpr ⟨hkind B hB fB hfB hBrel, hBrel⟩
    obtain ⟨e, he⟩ := Option.isSome_iff_exists.mp hsome
    have hmem : e ∈ circularDependencyErrors s := by
      unfold circularDependencyErrors
      rw [List.mem_flatMap]
      exact ⟨A, hA, List.mem_filterMap.mpr ⟨fA, hfA, he⟩⟩
    exact List.ne_nil_of_mem hmem

/-- Witness for C3 at scenario S4: the characterisation applied to the
two-class model with the required cycle. -/
theorem c3_circular_dependency_pairs_witness :
    circularDependencyErrors s4Schema ≠ [] ↔
      ∃ A ∈ s4Schema.Classes, ∃ B ∈ s4Schema.Classes,
        RequiredRelTo A B ∧ RequiredRelTo B A :=
  c3_circular_dependency_pairs.1 s4Schema (by decide) (by decide)

/-! ### Claim C6: a single primary-key source -/

/-- A passing `@primaryKey` field directive forces the field to be neither
optional nor an array. -/
theorem validatePrimaryKeyDirective_ok {a : FieldDirective} {opt arr : Bool} {u : Unit}
    (h : validatePrimaryKeyDirective a opt arr = .ok u) :
    opt = false ∧ arr = false := by
  unfold validatePrimaryKeyDirective at h
  split at h
  · cases h
  · split at h
    · cases h
    · rename_i h1 h2
      exact ⟨by simpa using h1, by simpa using h2⟩

/-- If the field-directive loop succeeds and a `primaryKey` directive occurs,
the field is neither optional nor an array. -/
theorem validateDirectivesLoop_pk (ft : String) (opt arr : Bool) :
    ∀ (attrs : List FieldDirective) (seen : List String) (hpk hu : Bool),
      validateMultipleDirectivesLoop ft opt arr attrs seen hpk hu = .ok () →
      (∃ d ∈ attrs, d.Name = ATTR_PRIMARY_KEY) →
      opt = false ∧ arr = false := by
  intro attrs
  induction attrs with
  | nil =>
    rintro seen hpk hu h ⟨d, hd, -⟩
    cases hd
  | cons attr rest ih =>
    rintro seen hpk hu h ⟨d, hd, hdn⟩
    unfold validateMultipleDirectivesLoop at h
    split at h
    · cases h
    · split at h
      · cases h
      · rename_i u heq
        rcases List.mem_cons.mp hd with rfl | hd'
        · unfold ValidateDirective at heq
          rw [if_pos hdn] at heq
          exact validatePrimaryKeyDirective_ok heq
        · exact ih _ _ _ h ⟨d, hd', hdn⟩

/-- A passing class-directive loop saw pairwise distinct directive names,
none of them among the already-seen ones. -/
theorem validateClassDirectivesLoop_nodup :
    ∀ (attrs : List ClassDirective) (seen : List String),
      validateMultipleClassDirectivesLoop attrs seen = .ok () →
      ((attrs.map ClassDirective.Name).Nodup ∧ ∀ a ∈ attrs, a.Name ∉ seen) := by
  intro attrs
  induction attrs with
  | nil =>
    intro seen _
    exact ⟨List.nodup_nil, by intro a ha; cases ha⟩
  | cons attr rest ih =>
    intro seen h
    unfold validateMultipleClassDirectivesLoop at h
    split at h
    · cases h
    · rename_i hcont
      split at h
      · cases h
      · obtain ⟨hnd, hnin⟩ := ih _ h
        have hattr_nin : attr.Name ∉ rest.map ClassDirective.Name := by
          intro hmem
          obtain ⟨a, ha, hEq⟩ := List.mem_map.mp hmem
          exact (hnin a ha) (hEq ▸ List.mem_cons_self _ _)
        refine ⟨List.nodup_cons.mpr ⟨hattr_nin, hnd⟩, ?_⟩
        intro a ha
        rcases List.mem_cons.mp ha with rfl | ha'
        · intro hmem
          exact hcont (by simpa using hmem)
        · intro hmem
          exact (hnin a ha') (List.mem_cons_of_mem _ hmem)

/-- Under pairwise distinct keys, at most one element carries a given key. -/
theorem filter_key_length_le_one {α : Type} (key : α → String) :
    ∀ (l : List α), (l.map key).Nodup → ∀ n : String,
      (l.filter (fun a => key a = n)).length ≤ 1 := by
  intro l
  induction l with
  | nil => intro _ n; simp
  | cons c cs ih =>
    intro hnd n
    rw [List.map_cons, List.nodup_cons] at hnd
    by_cases hc : key c = n
    · rw [List.filter_cons_of_pos (by simp [hc])]
      have hnil : cs.filter (fun a => decide (key a = n)) = [] := by
        rw [List.filter_eq_nil_iff]
        intro a ha hpa
        have : key a = n := by simpa using hpa
        exact hnd.1 (by rw [← hc] at this; exact this ▸ List.mem_map_of_mem key ha)
      simp [hnil]
    · rw [List.filter_cons_of_neg (by simp [hc])]
      exact ih hnd.2 n

/-- A passing `validatePrimaryKeyConstraints` rules out mixing the two
primary-key sources and rules out having neither. -/
theorem validatePrimaryKeyConstraints_ok {c : Class}
    (h : validatePrimaryKeyConstraints c = .ok ()) :
    ¬ (c.Attributes.Fields.any (fun f => f.IsPrimaryKey) = true ∧
        c.Attributes.HasPrimaryKey = true) ∧
      (c.Attributes.Fields.any (fun f => f.IsPrimaryKey) = true ∨
        c.Attributes.HasPrimaryKey = true) := by
  simp only [validatePrimaryKeyConstraints] at h
  split at h
  · cases h
  · rename_i h1
    split at h
    · cases h
    · rename_i h2
      constructor
      · exact h1
      · by_cases ha : c.Attributes.Fields.any (fun f => f.IsPrimaryKey) = true
        · exact Or.inl ha
        · by_cases hb : c.Attributes.HasPrimaryKey = true
          · exact Or.inr hb
          · exact absurd ⟨by simpa using ha, by simpa using hb⟩ h2

/-- C6.  In a validated model — class member with pairwise distinct field
names, every field's directives passing the field-directive validator, the
class passing `validatePrimaryKeyConstraints`, the class directives passing
`ValidateMultipleClassDirectives`, and the schema validator's primary-key
pass reporting no error — each class has exactly one primary-key source
(either exactly one field-level `primaryKey` field and no `@@primaryKey`
directive, or no field-level `primaryKey` and exactly one `@@primaryKey`
directive), and every primary-key field exists, is non-optional and is
non-array. -/
theorem c6_primary_key_source :
    ∀ (s : SchemaAST) (cls : Class), cls ∈ s.Classes →
    (cls.Attributes.Fields.map Field.GetName).Nodup →
    (∀ f ∈ cls.Attributes.Fields, ∃ ad, f.AttrDef = some ad ∧
      ValidateMultipleDirectives ad.Directives ad.DataType ad.IsOptional ad.IsArray = .ok ()) →
    validatePrimaryKeyConstraints cls = .ok () →
    ValidateMultipleClassDirectives cls.Attributes.Directives = .ok () →
    primaryKeyErrors s = [] →
    (((cls.Attributes.Fields.filter (fun f => f.IsPrimaryKey)).length = 1 ∧
        cls.Attributes.HasPrimaryKey = false) ∨
      ((cls.Attributes.Fields.filter (fun f => f.IsPrimaryKey)).length = 0 ∧
        (cls.Attributes.Directives.filter
          (fun d => d.Name = ATTR_PRIMARY_KEY)).length = 1)) ∧
    (∀ name ∈ cls.GetPrimaryKeyFields, ∃ fld,
      cls.Attributes.GetFieldByName name = some fld ∧
        fld.IsOptional = false ∧ fld.IsArray = false) := by
  intro s cls hcls hndf hf hconstraints hclassdirs hzero
  have hclserrs : pkErrorsForClass cls = [] := by
    by_contra hne
    obtain ⟨e, he⟩ := List.exists_mem_of_ne_nil _ hne
    have hmem : e ∈ primaryKeyErrors s := List.mem_flatMap.mpr ⟨cls, hcls, he⟩
    rw [hzero] at hmem
    cases hmem
  simp only [pkErrorsForClass] at hclserrs
  rw [List.append_eq_nil, List.append_eq_nil] at hclserrs
  obtain ⟨⟨hX, hY⟩, hZ⟩ := hclserrs
  have hcount_le :
      (cls.Attributes.Fields.filter (fun f => f.IsPrimaryKey)).length ≤ 1 := by
    by_contra hgt
    rw [if_pos (by omega)] at hX
    cases hX
  obtain ⟨hnotboth, hone⟩ := validatePrimaryKeyConstraints_ok hconstraints
  rcases hone with hfieldpk | hclasspk
  · -- field-level primary key
    have hnoclass : cls.Attributes.HasPrimaryKey = false := by
      by_cases hb : cls.Attributes.HasPrimaryKey = true
      · exact absurd ⟨hfieldpk, hb⟩ hnotboth
      · simpa using hb
    obtain ⟨f0, hf0mem, hf0pk⟩ := List.any_eq_true.mp hfieldpk
    have hcount_ge :
        1 ≤ (cls.Attributes.Fields.filter (fun f => f.IsPrimaryKey)).length := by
      have : f0 ∈ cls.Attributes.Fields.filter (fun f => f.IsPrimaryKey) :=
        List.mem_filter.mpr ⟨hf0mem, hf0pk⟩
      exact List.length_pos.mpr (List.ne_nil_of_mem this)
    refine ⟨Or.inl ⟨by omega, hnoclass⟩, ?_⟩
    -- the primary-key field list is the first field-level PK field's name
    have hdirnone : cls.Attributes.GetDirectiveByName ATTR_PRIMARY_KEY = none := by
      have : (cls.Attributes.GetDirectiveByName ATTR_PRIMARY_KEY).isSome = false := by
        simpa [ClassAttributes.HasPrimaryKey] using hnoclass
      exact Option.not_isSome_iff_eq_none.mp (by simp [this])
    have hfindpk : (cls.Attributes.Fields.find? (fun f => f.IsPrimaryKey)).isSome := by
      rw [List.find?_isSome]
      exact ⟨f0, hf0mem, hf0pk⟩
    obtain ⟨fpk, hfpk⟩ := Option.isSome_iff_exists.mp hfindpk
    have hfpkmem : fpk ∈ cls.Attributes.Fields := List.mem_of_find?_eq_some hfpk
    have hfpkpk : fpk.IsPrimaryKey = true := List.find?_some hfpk
    have hgpf : cls.GetPrimaryKeyFields = [fpk.GetName] := by
      unfold Class.GetPrimaryKeyFields ClassAttributes.GetPrimaryKeyFields
      rw [hdirnone, hfpk]
    rw [hgpf]
    intro name hname
    rcases List.mem_singleton.mp hname with rfl
    have hfound : cls.Attributes.GetFieldByName fpk.GetName = some fpk := by
      unfold ClassAttributes.GetFieldByName
      exact find?_eq_of_nodup_keys Field.GetName cls.Attributes.Fields hndf fpk hfpkmem
    refine ⟨fpk, hfound, ?_⟩
    obtain ⟨ad, hadeq, hadok⟩ := hf fpk hfpkmem
    have hpkdir : ∃ d ∈ ad.Directives, d.Name = ATTR_PRIMARY_KEY := by
      have : hasFieldDirective ad.Directives ATTR_PRIMARY_KEY = true := by
        unfold Field.IsPrimaryKey at hfpkpk
        rw [hadeq] at hfpkpk
        exact hfpkpk
      unfold hasFieldDirective getFieldDirectiveByName at this
      rw [Option.isSome_iff_exists] at this
      obtain ⟨d, hd⟩ := this
      exact ⟨d, List.mem_of_find?_eq_some hd, by simpa using List.find?_some hd⟩
    have := validateDirectivesLoop_pk ad.DataType ad.IsOptional ad.IsArray
      ad.Directives [] false false hadok hpkdir
    constructor
    · unfold Field.IsOptional
      rw [hadeq]
      exact this.1
    · unfold Field.IsArray
      rw [hadeq]
      exact this.2
  · -- class-level primary key
    have hnofield : cls.Attributes.Fields.any (fun f => f.IsPrimaryKey) = false := by
      by_cases hb : cls.Attributes.Fields.any (fun f => f.IsPrimaryKey) = true
      · exact absurd ⟨hb, hclasspk⟩ hnotboth
      · simpa using hb
    have hfilter0 : (cls.Attributes.Fields.filter (fun f => f.IsPrimaryKey)).length = 0 := by
      rw [List.length_eq_zero, List.filter_eq_nil_iff]
      intro f hfm hfp
      have : cls.Attributes.Fields.any (fun f => f.IsPrimaryKey) = true :=
        List.any_eq_true.mpr ⟨f, hfm, hfp⟩
      rw [hnofield] at this
      cases this
    have hdirmem : ∃ d ∈ cls.Attributes.Directives, d.Name = ATTR_PRIMARY_KEY := by
      unfold ClassAttributes.HasPrimaryKey ClassAttributes.GetDirectiveByName
        getClassDirectiveByName at hclasspk
      rw [Option.isSome_iff_exists] at hclasspk
      obtain ⟨d, hd⟩ := hclasspk
      exact ⟨d, List.mem_of_find?_eq_some hd, by simpa using List.find?_some hd⟩
    have hdir_nodup :=
      (validateClassDirectivesLoop_nodup cls.Attributes.Directives [] hclassdirs).1
    have hdircount_le :=
      filter_key_length_le_one ClassDirective.Name cls.Attributes.Directives hdir_nodup
        ATTR_PRIMARY_KEY
    have hdircount_ge :
        1 ≤ (cls.Attributes.Directives.filter
          (fun d => d.Name = ATTR_PRIMARY_KEY)).length := by
      obtain ⟨d, hdm, hdn⟩ := hdirmem
      have : d ∈ cls.Attributes.Directives.filter (fun d => d.Name = ATTR_PRIMARY_KEY) :=
        List.mem_filter.mpr ⟨hdm, by simpa using hdn⟩
      exact List.length_pos.mpr (List.ne_nil_of_mem this)
    refine ⟨Or.inr ⟨hfilter0, by omega⟩, ?_⟩
    -- the Z component of the per-class error list covers each PK field name
    rw [if_pos hclasspk] at hZ
    intro name hname
    have hzname : (match cls.Attributes.GetFieldByName name with
        | none =>
          [⟨"INVALID_PK_FIELD",
            "Primary key references non-existent field " ++ sq ++ name ++ sq,
            locClass cls⟩]
        | some fld =>
          (if fld.IsOptional then
             [⟨"OPTIONAL_PK_FIELD",
               "Primary key field " ++ sq ++ name ++ sq ++ " cannot be optional",
               locClassField cls name⟩]
           else []) ++
          (if fld.IsArray then
             [⟨"ARRAY_PK_FIELD",
               "Primary key field " ++ sq ++ name ++ sq ++ " cannot be an array",
               locClassField cls name⟩]
           else [])) = ([] : List ValidationError) := by
      by_contra hne
      obtain ⟨e, he⟩ := List.exists_mem_of_ne_nil _ hne
      have : e ∈ cls.Attributes.GetPrimaryKeyFields.flatMap fun fieldName =>
          match cls.Attributes.GetFieldByName fieldName with
          | none =>
            [⟨"INVALID_PK_FIELD",
              "Primary key references non-existent field " ++ sq ++ fieldName ++ sq,
              locClass cls⟩]
          | some fld =>
            (if fld.IsOptional then
               [⟨"OPTIONAL_PK_FIELD",
                 "Primary key field " ++ sq ++ fieldName ++ sq ++ " cannot be optional",
                 locClassField cls fieldName⟩]
             else []) ++
            (if fld.IsArray then
               [⟨"ARRAY_PK_FIELD",
                 "Primary key field " ++ sq ++ fieldName ++ sq ++ " cannot be an array",
                 locClassField cls fieldName⟩]
             else []) := List.mem_flatMap.mpr ⟨name, hname, he⟩
      rw [hZ] at this
      cases this
    cases hfound : cls.Attributes.GetFieldByName name with
    | none =>
      rw [hfound] at hzname
      cases hzname
    | some fld =>
      rw [hfound] at hzname
      rw [List.append_eq_nil] at hzname
      refine ⟨fld, rfl, ?_, ?_⟩
      · by_cases ho : fld.IsOptional = true
        · rw [if_pos ho] at hzname
          cases hzname.1
        · simpa using ho
      · by_cases ha : fld.IsArray = true
        · rw [if_pos ha] at hzname
          cases hzname.2
        · simpa using ha

/-- Witness for C6 at a concrete validated class: `C { id Int @primaryKey }`
inside the model `c10From`. -/
theorem c6_primary_key_source_witness :
    (((c10OldClass.Attributes.Fields.filter (fun f => f.IsPrimaryKey)).length = 1 ∧
        c10OldClass.Attributes.HasPrimaryKey = false) ∨
      ((c10OldClass.Attributes.Fields.filter (fun f => f.IsPrimaryKey)).length = 0 ∧
        (c10OldClass.Attributes.Directives.filter
          (fun d => d.Name = ATTR_PRIMARY_KEY)).length = 1)) ∧
    (∀ name ∈ c10OldClass.GetPrimaryKeyFields, ∃ fld,
      c10OldClass.Attributes.GetFieldByName name = some fld ∧
        fld.IsOptional = false ∧ fld.IsArray = false) :=
  c6_primary_key_source c10From c10OldClass (by decide) (by decide)
    (by
      intro f hfm
      have hf : f = mkScalarField "id" "Int" [pkDirective] none 0 := by
        have hfm' : f ∈ [mkScalarField "id" "Int" [pkDirective] none 0] := hfm
        exact List.mem_singleton.mp hfm'
      subst hf
      exact ⟨_, rfl, by decide⟩)
    (by decide) (by decide) (by decide)

/-! ### Claim C8 (amended): the reader silently drops what it cannot match -/

/-- The opening-brace step fails on input with no opening brace. -/
theorem matchOpenBrace_none_of_no_brace (l : List Char) (h : '{' ∉ l) :
    matchOpenBrace l = none := by
  cases l with
  | nil => rfl
  | cons x r6 =>
    have hxne : ¬ (x = '{') := by
      intro hx
      exact h (hx ▸ List.mem_cons_self x r6)
    simp only [matchOpenBrace]
    rw [if_neg hxne]

/-- The name-and-body step fails on input with no opening brace. -/
theorem matchNameAndBody_none_of_no_brace (l : List Char) (h : '{' ∉ l) :
    matchNameAndBody l = none := by
  cases l with
  | nil => rfl
  | cons d r3 =>
    simp only [matchNameAndBody]
    by_cases hup : isAsciiUpper d = true
    case neg => rw [if_neg hup]
    case pos =>
      rw [if_pos hup]
      by_cases hlen : (r3.takeWhile isWordChar).length > 63
      · rw [if_pos hlen]
      · rw [if_neg hlen]
        apply matchOpenBrace_none_of_no_brace
        intro hm
        have s4 : r3 <:+ d :: r3 := List.suffix_cons d r3
        have s5 : r3.dropWhile isWordChar <:+ d :: r3 :=
          (List.dropWhile_suffix _).trans s4
        have s6 : (r3.dropWhile isWordChar).dropWhile isSpaceRe <:+ d :: r3 :=
          (List.dropWhile_suffix _).trans s5
        exact h (s6.subset hm)

/-- The after-keyword step fails on input with no opening brace. -/
theorem matchAfterKeyword_none_of_no_brace (l : List Char) (h : '{' ∉ l) :
    matchAfterKeyword l = none := by
  cases l with
  | nil => rfl
  | cons c r1 =>
    simp only [matchAfterKeyword]
    by_cases hc : isSpaceRe c = true
    case neg => rw [if_neg hc]
    case pos =>
      rw [if_pos hc]
      apply matchNameAndBody_none_of_no_brace
      intro hm
      have s2 : r1 <:+ c :: r1 := List.suffix_cons c r1
      have s3 : r1.dropWhile isSpaceRe <:+ c :: r1 := (List.dropWhile_suffix _).trans s2
      exact h (s3.subset hm)

/-- The block matcher cannot succeed on input containing no opening brace. -/
theorem matchKeywordBlock_none_of_no_brace (kw l : List Char) (h : '{' ∉ l) :
    matchKeywordBlock kw l = none := by
  unfold matchKeywordBlock
  split
  case isFalse => rfl
  case isTrue =>
    apply matchAfterKeyword_none_of_no_brace
    intro hm
    exact h ((List.drop_suffix kw.length l).subset hm)

/-- Without an opening brace the scanner finds no block at any position. -/
theorem findAllBlocksAux_nil_of_no_brace (kw : List Char) :
    ∀ (fuel : Nat) (l : List Char), '{' ∉ l → findAllBlocksAux kw fuel l = [] := by
  intro fuel
  induction fuel with
  | zero =>
    intro l _
    cases l <;> rfl
  | succ n ih =>
    intro l h
    cases l with
    | nil => rfl
    | cons c cs =>
      unfold findAllBlocksAux
      simp only [matchKeywordBlock_none_of_no_brace kw (c :: cs) h]
      exact ih cs (fun hm => h (List.mem_cons_of_mem c hm))

/-- C8 (amended).  The reader's `separate` never fails: it has no error
result.  On input without any opening brace — in particular when a
recognised keyword occurs but no block can be extracted — it returns the
empty pair, silently; an unknown top-level token with a block is likewise
dropped, while well-formed enum and class blocks around unknown tokens are
still extracted. -/
theorem c8_separate_silently_drops :
    (∀ content : String, strHasChar content '{' = false →
      separateEnumsAndClassesWithRegex content = ("", "")) ∧
      separateEnumsAndClassesWithRegex "widget Gadget { x }" = ("", "") ∧
      separateEnumsAndClassesWithRegex
          "enum Role { USER ADMIN }\nclass User { id Int }" =
        ("enum Role { USER ADMIN }", "class User { id Int }") := by
  refine ⟨?_, by decide, by decide⟩
  intro content h
  have hnb : '{' ∉ content.toList := by
    intro hm
    have hc : strHasChar content '{' = true := by
      unfold strHasChar
      exact List.elem_eq_true_of_mem hm
    rw [h] at hc
    cases hc
  unfold separateEnumsAndClassesWithRegex findAllBlocks
  rw [findAllBlocksAux_nil_of_no_brace _ _ _ hnb,
    findAllBlocksAux_nil_of_no_brace _ _ _ hnb]
  rfl

/-- Witness for C8 at a second bare keyword. -/
theorem c8_separate_silently_drops_witness :
    separateEnumsAndClassesWithRegex "class Bar" = ("", "") :=
  c8_separate_silently_drops.1 "class Bar" (by decide)

end Blaze
